import Mathlib

/-!
Verification development for the `drs_rada` C-style static analyzer
(`Script_Analyzer.py`).  Lines of an input file are modelled as lists of
characters, exactly as Python's `readlines()` produces them (line
terminators included).  Every rule checker is translated as a pure
function from the line list (plus the reserved-type set where the source
reads it) to the ordered list of violation records it logs, and a wrapper
merges those records and the corresponding counter updates into the
analysis state, mirroring the `logging.info(...); self.counts[...] += 1`
pairs of the source.  `run_analysis` is the sequential pipeline of
checks; each check absorbs its own `FileNotFoundError` and internal
exceptions, as in the source.
-/

/-- Python line strings are modelled as lists of characters. -/
abbrev Str := List Char

/-- Shorthand turning a Lean string literal into a character list. -/
def str (s : String) : Str := s.data

/-- Characters Python's `str.strip()` and the regex class `\s` treat as
whitespace. -/
def pyIsSpace (c : Char) : Bool :=
  c = ' ' || c = '\t' || c = '\n' || c = '\r' || c = '\x0b' || c = '\x0c'

/-- Characters matched by the regex class `\w` (ASCII). -/
def isWordChar (c : Char) : Bool := c.isAlpha || c.isDigit || c = '_'

/-- Python `str.lstrip()` restricted to a predicate. -/
def lstripBy (p : Char → Bool) (l : Str) : Str := l.dropWhile p

/-- Python `str.rstrip()` restricted to a predicate. -/
def rstripBy (p : Char → Bool) (l : Str) : Str := (l.reverse.dropWhile p).reverse

/-- Python `str.strip()`. -/
def pyStrip (l : Str) : Str := rstripBy pyIsSpace (lstripBy pyIsSpace l)

/-- Python `str.rstrip(cs)`: drop trailing characters belonging to `cs`. -/
def pyRstripSet (cs : List Char) (l : Str) : Str := rstripBy (fun c => cs.contains c) l

/-- Python's substring test `pat in l`. -/
def containsSub : Str → Str → Bool
  | [], pat => pat.isEmpty
  | c :: tl, pat => pat.isPrefixOf (c :: tl) || containsSub tl pat

/-- Python `str.split()` (split on whitespace runs, dropping empty pieces). -/
def pySplitWs (l : Str) : List Str :=
  let r := l.foldl (fun (acc : List Str × Str) c =>
    if pyIsSpace c then (if acc.2 = [] then acc else (acc.1 ++ [acc.2.reverse], []))
    else (acc.1, c :: acc.2)) ([], [])
  if r.2 = [] then r.1 else r.1 ++ [r.2.reverse]

/-- Python `str.split(sep)` for a one-character separator (keeps empty pieces). -/
def pySplitOn (sep : Char) (l : Str) : List Str :=
  let r := l.foldl (fun (acc : List Str × Str) c =>
    if c = sep then (acc.1 ++ [acc.2.reverse], []) else (acc.1, c :: acc.2)) ([], [])
  r.1 ++ [r.2.reverse]

/-- Python `str.replace(ch, "")`. -/
def removeChar (ch : Char) (l : Str) : Str := l.filter (fun c => c ≠ ch)

/-- Case-insensitive prefix test (the pattern is given in lower case),
modelling literals under `re.IGNORECASE`. -/
def ciIsPrefixOf : Str → Str → Bool
  | [], _ => true
  | _, [] => false
  | p :: ps, c :: cs => (p.toLower = c.toLower) && ciIsPrefixOf ps cs

/-- Split a string at the first occurrence of a substring, returning the
text before it and the text after it (Python `str.index` plus slicing). -/
def splitFirstSub : Str → Str → Option (Str × Str)
  | [], pat => if pat.isEmpty then some ([], []) else none
  | c :: tl, pat =>
    if pat.isPrefixOf (c :: tl) then some ([], (c :: tl).drop pat.length)
    else (splitFirstSub tl pat).map (fun pr => (c :: pr.1, pr.2))

/-- Lazy regex search: find the earliest split `l = pre ++ rest` such that
`p rest` succeeds, each skipped character passing `dotOk` (Python's `.`,
which does not match a newline).  Returns the skipped prefix and the
result.  This is exactly the backtracking order of a lazy `.*?`. -/
def lazyFindPre (dotOk : Char → Bool) (p : Str → Option α) : Str → Option (Str × α)
  | [] => (p []).map (fun a => ([], a))
  | c :: tl =>
    match p (c :: tl) with
    | some a => some ([], a)
    | none =>
      if dotOk c then (lazyFindPre dotOk p tl).map (fun pr => (c :: pr.1, pr.2))
      else none

/-- Generic non-overlapping `re.findall` scan: at each position try `step`;
on success record the result and resume after the match, otherwise advance
one character.  Fuel bounds the recursion (one unit per position). -/
def scanAll (step : Str → Option (α × Str)) : Nat → Str → List α
  | 0, _ => []
  | _, [] => []
  | fuel + 1, c :: tl =>
    match step (c :: tl) with
    | some (a, rest) => a :: scanAll step fuel rest
    | none => scanAll step fuel tl

/-- First pattern of a list that matches as a prefix (regex alternation
order), returning the pattern and the remaining text. -/
def firstPrefix : List Str → Str → Option (Str × Str)
  | [], _ => none
  | p :: rest, l =>
    if p.isPrefixOf l then some (p, l.drop p.length) else firstPrefix rest l

/-- One-based enumeration of lines (`enumerate(lines, start=1)`). -/
def enum1 (l : List α) : List (Nat × α) := l.enum.map (fun p => (p.1 + 1, p.2))

/-! ## Global configuration lists of `Script_Analyzer.py` -/

/-- Fixed line-length threshold (`ALLOWED_CHAR_COUNT = 85`). -/
def ALLOWED_CHAR_COUNT : Nat := 85

/-- The operator table used by `check_operator_spacing`. -/
def OPERATORS : List Str :=
  [ str "->", str "<<", str ">>", str "==", str "!=", str "<=", str ">=",
    str "&&", str "||", str "+=", str "-=", str "*=", str "&=", str "|=",
    str "^=", str "+", str "-", str "*", str "/", str "%", str "=",
    str "<", str ">", str "&", str "|", str ",", str "?" ]

/-- `FORMAT_SPECIFIERS` list of the source. -/
def FORMAT_SPECIFIERS : List Str :=
  [ str "%c", str "%d", str "%e", str "%E", str "%f", str "%g", str "%G",
    str "%i", str "%ld", str "%li", str "%lf", str "%Lf", str "%lu",
    str "%lli", str "%lld", str "%llu", str "%o", str "%p", str "%s",
    str "%u", str "%x", str "%X", str "%n", str "%%" ]

/-- `EXPORT_FUNCTIONS` allow-list of the source. -/
def EXPORT_FUNCTIONS : List Str :=
  [ str "STATUS hmc7043IfInit(", str "STATUS hmc7043InitDev(",
    str "STATUS hmc7043OutChEnDis(", str "STATUS hmc7043ChDoSlip(",
    str "STATUS hmc7043SetSysrefMode(", str "STATUS hmc7043SysrefSwPulseN(",
    str "STATUS hmc7043GetAlarm(", str "STATUS hmc7043GetAlarms(",
    str "STATUS hmc7043ClearAlarms(", str "STATUS hmc7043RegRead(",
    str "STATUS hmc7043RegWrite(" ]

/-- Seed list `RESERVED_TYPES` of the source. -/
def RESERVED_TYPES : List Str :=
  [ str "int", str "short", str "long", str "long long", str "float",
    str "double", str "long double", str "char", str "wchar_t",
    str "char16_t", str "char32_t", str "bool", str "void", str "enum",
    str "struct", str "union", str "CKDST_DEV", str "CKDST_DEV_MASK",
    str "CKDST_FREQ_HZ", str "HMC7043_REG", str "HMC7043_PRD_ID",
    str "HMC7043_REG_READ", str "HMC7043_REG_WRITE", str "Hmc7043_dev_io_if",
    str "HMC7043_DEV_CLKIN_DIV", str "Hmc7043_dev_in_sup",
    str "HMC7043_DEV_GPI_SUP", str "HMC7043_DEV_GPO_SUP",
    str "HMC7043_DEV_OUTPUT_MODE", str "HMC7043_SREF_MODE",
    str "HMC7043_SREF_NPULSES", str "Hmc7043_dev_alarms",
    str "HMC7043_CH_MODE", str "HMC7043_CH_DRV_MODE",
    str "HMC7043_CH_CML_INT_TERM", str "HMC7043_CH_IDLE0",
    str "HMC7043_CH_OUT_SEL", str "Hmc7043_ch_sup", str "HMC7043_CH_MASK",
    str "Hmc7043_app_dev_params", str "SYS_TIME", str "SYS_TIME_NS",
    str "SYS_TIME_EXT_TICKS", str "SYS_TIME_EXT_SRC",
    str "SYS_CODE_ERR_HANDLING", str "CODE_ERROR_ID", str "FUNCPTR",
    str "SYS_CODE_ERR_APP_HOOK", str "SOCKET", str "IP_ADDR_V4",
    str "SYS_THREAD_PRI", str "Sys_thread_ctl_params", str "SYS_THREAD_OPTS",
    str "Sys_thread_args", str "SYS_THREAD_FUNC", str "HSYS_THREAD",
    str "Sys_thread_per_serv_args", str "SYS_LOG_LEVEL", str "Sys_log_params",
    str "SYS_LOG_EXT_HANDLER", str "SYS_RT_THROTTLE_CTL",
    str "Sys_sched_params", str "SYS_SIG_MASK", str "Sys_signal_handling",
    str "Sys_util_params", str "SYS_RESOURCE_DELETE_FUNC", str "Utl_ffind",
    str "UTL_FFIND_OPTS", str "HUTL_MUTEX", str "HUTL_QUEUE",
    str "UTL_Q_STAT", str "Utl_ffind_impl", str "INT8", str "UINT8",
    str "INT16", str "UINT16", str "INT32", str "UINT32", str "INT64",
    str "UINT64", str "INT128", str "UINT128", str "ULONG", str "UINT4PTR",
    str "PHYSICAL_ADDRESS", str "REAL32", str "REAL64", str "Bool",
    str "UINT8_Bool", str "STATUS", str "UINT32_ATOMIC",
    str "UINT64_ATOMIC", str "DS7505_DEV_MASK", str "const char" ]

/-- `UI_VARIABLES`, the unsigned-type keyword list of the source. -/
def UI_VARIABLES : List Str :=
  [ str "unsigned", str "UINT8", str "UINT32", str "UINT64",
    str "HMC7043_REG", str "HMC7043_PRD_ID", str "CKDST_DEV",
    str "CKDST_DEV_MASK", str "CKDST_FREQ_HZ" ]

/-- `KNOWN_KEYWORDS` block-list of the source. -/
def KNOWN_KEYWORDS : List Str :=
  [ str "const", str "static", str "extern", str "if", str "for",
    str "while", str "switch", str "case", str "default", str "break",
    str "continue", str "return", str "goto", str "else", str "define",
    str "pragma", str "sizeof", str "typedef", str "do", str "void",
    str "volatile", str "register", str "restrict", str "inline",
    str "enum", str "struct", str "union" ]

/-! ## Analysis state -/

/-- Rule identifiers, one per key of the `self.counts` dictionary. -/
inductive RuleId where
  | line_length_limit_check
  | excess_whitespace_check
  | operator_spacing_check
  | pointer_naming_check
  | address_print_check
  | unsigned_print_check
  | comment_check
  | hex_value_check
  | variable_declarations_check
  | naming_conventions_check
  | unsigned_logic_check
  | replace_name_check
  | spacing_between_routines_check
  | brace_placement_check
  | consistency_check
  deriving DecidableEq

/-- A diagnostic: one reported style violation (rule id, line number, and
the variable-name payload where the source interpolates one). -/
structure Diag where
  rule : RuleId
  line : Nat
  info : Str
  deriving DecidableEq

/-- Error-level log events relevant to the claims: the per-check
`FileNotFoundError` handlers and the recovered internal exception of
`check_variable_declaration` (`line.split("=")[0].strip().split()[-1]`
raising `IndexError`). -/
inductive LogEvent where
  | fileNotFound (check : String)
  | varDeclIndexError
  deriving DecidableEq

/-- The mutable analyzer state: the counter mapping, the ordered list of
emitted diagnostics, error-level log events, the reserved-type set and
whether the final report was handed to the mailing collaborator. -/
structure AState where
  counts : RuleId → Nat
  diags : List Diag
  errors : List LogEvent
  reserved : List Str
  emailed : Bool

/-- Initial state of one analysis run (`ScriptAnalyzer.__init__`): every
counter zero, no diagnostics, the seeded reserved-type set. -/
def initState : AState :=
  { counts := fun _ => 0, diags := [], errors := [], reserved := RESERVED_TYPES,
    emailed := false }

/-- Number of diagnostics in a list carrying a given rule id. -/
def countRule (ds : List Diag) (r : RuleId) : Nat :=
  (ds.filter (fun d => d.rule == r)).length

/-- Build the diagnostics of one rule from its (line, payload) records. -/
def mkDiags (r : RuleId) (xs : List (Nat × Str)) : List Diag :=
  xs.map (fun p => { rule := r, line := p.1, info := p.2 })

/-- Merge a batch of freshly logged diagnostics into the state, adding the
matching counter increments (the source increments the counter next to
each `logging` call). -/
def addDiags (s : AState) (ds : List Diag) : AState :=
  { s with diags := s.diags ++ ds,
           counts := fun r => s.counts r + countRule ds r }

/-- Record a `FileNotFoundError` log of one check. -/
def addFnf (s : AState) (name : String) : AState :=
  { s with errors := s.errors ++ [.fileNotFound name] }

/-! ## check_line_length_limit -/

/-- Core of `check_line_length_limit`: one record per line whose raw
length (line terminator included, as `len(line)` sees it) exceeds
`ALLOWED_CHAR_COUNT`.  Stateless across lines. -/
def lineLengthHits (lines : List Str) : List (Nat × Str) :=
  (enum1 lines).filterMap (fun p =>
    if ALLOWED_CHAR_COUNT < p.2.length then some (p.1, []) else none)

/-- `check_line_length_limit`. -/
def check_line_length_limit (file : Option (List Str)) (s : AState) : AState :=
  match file with
  | none => addFnf s "check_line_length_limit"
  | some lines => addDiags s (mkDiags .line_length_limit_check (lineLengthHits lines))

/-! ## Comment-skipping line scan shared by several checks

The checks `check_naming_conventions`, `check_hex_values`,
`check_consistency` and `check_excess_whitespace` all start each loop
iteration with the same block:
setting `in_multiline_comment` when the raw line contains `/*`, then
skipping the line (and clearing the flag on `*/`) when the flag is set or
the raw line starts with `//`. -/

/-- One step of the shared comment-skip logic: given the incoming
`in_multiline_comment` flag and the raw line, return the outgoing flag and
whether the line's body is skipped. -/
def commentSkipStep (inML : Bool) (line : Str) : Bool × Bool :=
  let inML1 := if containsSub line (str "/*") then true else inML
  if inML1 || (str "//").isPrefixOf line then
    (if containsSub line (str "*/") then false else inML1, true)
  else (inML1, false)

/-- Fold a per-line body over the lines surviving the comment skip. -/
def cmFold (body : Nat → Str → σ → σ) : List (Nat × Str) → Bool × σ → Bool × σ
  | [], st => st
  | (i, line) :: rest, (inML, st) =>
    let step := commentSkipStep inML line
    if step.2 then cmFold body rest (step.1, st)
    else cmFold body rest (step.1, body i line st)

/-- The (line number, line) pairs a comment-skipping check actually
processes, in order. -/
def nonSkippedLines (lines : List Str) : List (Nat × Str) :=
  (cmFold (fun i l acc => acc ++ [(i, l)]) (enum1 lines) (false, [])).2

/-! ## check_hex_values -/

/-- Characters of the regex class `[A-F0-9]`. -/
def isHexUpperDigit (c : Char) : Bool := ('A' ≤ c && c ≤ 'F') || c.isDigit

/-- One candidate match of `0x[A-F0-9]+` at the current position. -/
def hexStep (l : Str) : Option (Str × Str) :=
  if (str "0x").isPrefixOf l then
    let r := l.drop 2
    let ds := r.takeWhile isHexUpperDigit
    if ds = [] then none else some ('0' :: 'x' :: ds, r.drop ds.length)
  else none

/-- `re.findall(r'0x[A-F0-9]+', line)`. -/
def hexFindall (l : Str) : List Str := scanAll hexStep l.length l

/-- Python `char.isupper()` for the ASCII range. -/
def pyIsUpper (c : Char) : Bool := 'A' ≤ c && c ≤ 'Z'

/-- Records of `check_hex_values` for one surviving line: one per matched
hex token containing an upper-case character. -/
def hexLineHits (i : Nat) (line : Str) : List (Nat × Str) :=
  ((hexFindall line).filter (fun hv => hv.any pyIsUpper)).map (fun hv => (i, hv))

/-- Core of `check_hex_values` over the whole file. -/
def hexHits (lines : List Str) : List (Nat × Str) :=
  (cmFold (fun i l acc => acc ++ hexLineHits i l) (enum1 lines) (false, [])).2

/-- `check_hex_values`. -/
def check_hex_values (file : Option (List Str)) (s : AState) : AState :=
  match file with
  | none => addFnf s "check_hex_values"
  | some lines => addDiags s (mkDiags .hex_value_check (hexHits lines))

/-! ## check_consistency -/

/-- Line-ending accumulation of `check_consistency`: `'\r\n' in line`
records CRLF, otherwise `'\n' in line` records LF. -/
def endingsStep (line : Str) (e : Bool × Bool) : Bool × Bool :=
  if containsSub line (str "\r\n") then (true, e.2)
  else if containsSub line [ '\n' ] then (e.1, true)
  else e

/-- The (sawCRLF, sawLF) pair collected over the surviving lines. -/
def endingsSeen (lines : List Str) : Bool × Bool :=
  (cmFold (fun _ l e => endingsStep l e) (enum1 lines) (false, (false, false))).2

/-- `check_consistency`: after the scan, a single diagnostic when both
ending styles were recorded (`len(line_endings) > 1`).  The diagnostic is
logged without a line number; we record line 0. -/
def check_consistency (file : Option (List Str)) (s : AState) : AState :=
  match file with
  | none => addFnf s "check_consistency"
  | some lines =>
    let e := endingsSeen lines
    addDiags s (mkDiags .consistency_check (if e.1 && e.2 then [(0, [])] else []))

/-! ## check_excess_whitespace -/

/-- Count of non-overlapping matches of `re.findall(r'(\S+)\s{2,}(\S+)', line)`:
a word, a run of at least two whitespace characters, and a second word, the
scan resuming after the second word. -/
def ewFindallCount : Nat → Str → Nat
  | 0, _ => 0
  | _, [] => 0
  | fuel + 1, c :: tl =>
    if pyIsSpace c then ewFindallCount fuel tl
    else
      let l := c :: tl
      let w1 := l.takeWhile (fun c => !pyIsSpace c)
      let r1 := l.drop w1.length
      let sp := r1.takeWhile pyIsSpace
      let r2 := r1.drop sp.length
      let w2 := r2.takeWhile (fun c => !pyIsSpace c)
      if 2 ≤ sp.length && w2 ≠ [] then 1 + ewFindallCount fuel (r2.drop w2.length)
      else ewFindallCount fuel r1

/-- Core of `check_excess_whitespace`: one record per regex match on each
surviving line. -/
def excessWhitespaceHits (lines : List Str) : List (Nat × Str) :=
  (cmFold (fun i l acc => acc ++ List.replicate (ewFindallCount l.length l) (i, []))
    (enum1 lines) (false, [])).2

/-- `check_excess_whitespace`. -/
def check_excess_whitespace (file : Option (List Str)) (s : AState) : AState :=
  match file with
  | none => addFnf s "check_excess_whitespace"
  | some lines => addDiags s (mkDiags .excess_whitespace_check (excessWhitespaceHits lines))

/-! ## check_name_replace (header files) -/

/-- Core of `check_name_replace`: one record per line containing `EEPROM_H`. -/
def nameReplaceHits (lines : List Str) : List (Nat × Str) :=
  (enum1 lines).filterMap (fun p =>
    if containsSub p.2 (str "EEPROM_H") then some (p.1, []) else none)

/-- `check_name_replace`. -/
def check_name_replace (file : Option (List Str)) (s : AState) : AState :=
  match file with
  | none => addFnf s "check_name_replace"
  | some lines => addDiags s (mkDiags .replace_name_check (nameReplaceHits lines))

/-! ## check_naming_conventions -/

/-- Body of `check_naming_conventions` for one surviving line: first, one
record per `EXPORT_FUNCTIONS` entry occurring in the line without the
`EXPORT ` prefix on the stripped line; second, the `LOCAL`-prefix branch
for `STATUS ` lines mentioning no allow-listed function. -/
def namingLineHits (i : Nat) (line : Str) : List (Nat × Str) :=
  let exportHits := EXPORT_FUNCTIONS.filterMap (fun fn =>
    if containsSub line fn && !((str "EXPORT " ++ fn).isPrefixOf (pyStrip line)) then
      some (i, []) else none)
  let localHits :=
    if !(EXPORT_FUNCTIONS.any (fun fn => containsSub line fn)) then
      if (str "STATUS ").isPrefixOf line && containsSub line [ '(' ] &&
          containsSub line [ ')' ] then
        match (pySplitOn ' ' line).drop 1 with
        | second :: _ =>
          match pySplitOn '(' second with
          | fn :: _ :: _ =>
            if !(EXPORT_FUNCTIONS.contains fn) then [(i, [])] else []
          | _ => []
        | [] => []
      else []
    else []
  exportHits ++ localHits

/-- Core of `check_naming_conventions` over the whole file. -/
def namingHits (lines : List Str) : List (Nat × Str) :=
  (cmFold (fun i l acc => acc ++ namingLineHits i l) (enum1 lines) (false, [])).2

/-- `check_naming_conventions`. -/
def check_naming_conventions (file : Option (List Str)) (s : AState) : AState :=
  match file with
  | none => addFnf s "check_naming_conventions"
  | some lines => addDiags s (mkDiags .naming_conventions_check (namingHits lines))

/-! ## check_spacing_between_routines -/

/-- The opening banner literal: `/` followed by 79 `*`. -/
def routineBannerOpen : Str := '/' :: List.replicate 79 '*'

/-- The closing banner literal: 79 `*` followed by `/`. -/
def routineBannerClose : Str := List.replicate 79 '*' ++ [ '/' ]

/-- Core loop of `check_spacing_between_routines`, carrying the count of
preceding empty lines and the banner-comment flag; the `int main()` branch
breaks out of the loop. -/
def spacingGo : List (Nat × Str) → Nat → Bool → List (Nat × Str) → List (Nat × Str)
  | [], _, _, acc => acc
  | (i, rawLine) :: rest, cnt, cb, acc =>
    let line := pyStrip rawLine
    if line = [] then spacingGo rest (cnt + 1) cb acc
    else if cnt = 4 && routineBannerOpen.isPrefixOf line then spacingGo rest 0 true acc
    else if cb && routineBannerClose.isSuffixOf line then spacingGo rest 4 false acc
    else if cnt = 4 && (str "int main()").isPrefixOf line then acc
    else if !cb && cnt = 4 && (str "* - name:").isPrefixOf line then
      spacingGo rest 0 cb (acc ++ [(i, [])])
    else if !cb && cnt = 4 && ([ '}' ] : Str).isSuffixOf line then
      spacingGo rest 0 cb (acc ++ [(i, [])])
    else spacingGo rest 0 cb acc

/-- Core of `check_spacing_between_routines`. -/
def spacingHits (lines : List Str) : List (Nat × Str) :=
  spacingGo (enum1 lines) 0 false []

/-- `check_spacing_between_routines`. -/
def check_spacing_between_routines (file : Option (List Str)) (s : AState) : AState :=
  match file with
  | none => addFnf s "check_spacing_between_routines"
  | some lines =>
    addDiags s (mkDiags .spacing_between_routines_check (spacingHits lines))

/-! ## check_brace_placement -/

/-- The control-structure keyword list of `check_brace_placement`. -/
def control_structures : List Str :=
  [ str "if", str "else if", str "else", str "switch", str "for",
    str "while", str "do", str "case", str "default" ]

/-- The `function_patterns` list of `check_brace_placement`. -/
def function_patterns : List Str := [ str "EXPORT STATUS", str "LOCAL STATUS" ]

/-- Suffix test with the argument order of Python's `endswith`. -/
def pyEndsWith (l suffix : Str) : Bool := suffix.isSuffixOf l

/-- Inner loop over the control-structure keywords: for each keyword
occurring in the stripped line, either the opening-brace branch (which also
pushes onto the stack) or the stack-driven branch fires. -/
def braceInner (i : Nat) (stripped : Str) :
    List Str × List (Nat × Str) → List Str × List (Nat × Str) :=
  fun st =>
    control_structures.foldl (fun (st : List Str × List (Nat × Str)) cs =>
      let (stack, acc) := st
      if containsSub stripped cs then
        if containsSub stripped [ '{' ] &&
            !(pyEndsWith (pyRstripSet [ '/', '*' ] stripped) [ '{' ]) then
          (stack ++ [cs], acc ++ [(i, cs)])
        else if stack ≠ [] && !(([ '{' ] : Str).isPrefixOf stripped) then
          (stack, acc ++ [(i, cs)])
        else st
      else st) st

/-- Core loop of `check_brace_placement`, carrying the control-structure
stack and the block-comment flag. -/
def braceGo : List (Nat × Str) → List Str → Bool → List (Nat × Str) → List (Nat × Str)
  | [], _, _, acc => acc
  | (i, rawLine) :: rest, stack, inML, acc =>
    let stripped := pyStrip rawLine
    if stripped = [] then braceGo rest stack inML acc
    else
      let inML1 := if containsSub stripped (str "/*") then true else inML
      if inML1 then
        braceGo rest stack (if containsSub stripped (str "*/") then false else inML1) acc
      else if containsSub stripped (str "//") then braceGo rest stack inML1 acc
      else if (str "typedef").isPrefixOf stripped ||
          containsSub (removeChar ' ' stripped) (str "#define") then
        braceGo rest stack inML1 acc
      else
        let st1 := braceInner i stripped (stack, acc)
        let stack1 := st1.1
        let acc1 := st1.2
        if function_patterns.any (fun p => containsSub rawLine p) then
          braceGo rest stack1 inML1 acc1
        else
          let popped :=
            if stack1 ≠ [] && ([ '}' ] : Str).isPrefixOf stripped then
              let acc2 :=
                if !(pyEndsWith stripped [ '}' ]) then
                  acc1 ++ [(i, stack1.getLastD [])]
                else acc1
              (stack1.dropLast, acc2)
            else (stack1, acc1)
          let acc3 :=
            if containsSub stripped [ '}' ] && !(([ '}' ] : Str).isPrefixOf stripped) then
              popped.2 ++ [(i, [])]
            else popped.2
          braceGo rest popped.1 inML1 acc3

/-- Core of `check_brace_placement`. -/
def braceHits (lines : List Str) : List (Nat × Str) :=
  braceGo (enum1 lines) [] false []

/-- `check_brace_placement`. -/
def check_brace_placement (file : Option (List Str)) (s : AState) : AState :=
  match file with
  | none => addFnf s "check_brace_placement"
  | some lines => addDiags s (mkDiags .brace_placement_check (braceHits lines))

/-! ## check_comments -/

/-- Contents of the complete quote pairs of a line (`quote_indices` pairs
`(0,1), (2,3), ...` of the source). -/
def quotePairContents (l : Str) : List Str :=
  let pieces := pySplitOn '"' l
  pieces.enum.filterMap (fun p =>
    if p.1 % 2 = 1 && p.1 + 1 < pieces.length then some p.2 else none)

/-- Flush the run of consecutive `//` comment lines: one diagnostic for a
run of more than one line (spanning message), one for a single line,
nothing for an empty run.  The recorded line is the run's first line. -/
def ccFlush (cons : List (Nat × Str)) (acc : List (Nat × Str)) : List (Nat × Str) :=
  match cons with
  | [] => acc
  | [(ln, _)] => acc ++ [(ln, [])]
  | (ln, _) :: _ :: _ => acc ++ [(ln, [])]

/-- Core loop of `check_comments`: the consecutive-comment buffer, the
block-comment flag and the string flag evolve exactly as in the source;
the final flush handles a run reaching the end of the file. -/
def ccGo : List (Nat × Str) → List (Nat × Str) → Bool → Bool →
    List (Nat × Str) → List (Nat × Str)
  | [], cons, _, _, acc => ccFlush cons acc
  | (i, rawLine) :: rest, cons, inML, inStr, acc =>
    let line := pyStrip rawLine
    let acc1 :=
      if containsSub line [ '"' ] then
        (quotePairContents line).foldl (fun acc content =>
          if containsSub content (str "//") then acc ++ [(i, [])] else acc) acc
      else acc
    let step :=
      if containsSub line (str "//") && !inStr && !inML then
        match splitFirstSub line (str "//") with
        | some (_, after) =>
          if pyStrip after ≠ [] then (cons ++ [(i, line)], acc1) else (cons, acc1)
        | none => (cons, acc1)
      else ([], ccFlush cons acc1)
    let inML1 :=
      if containsSub line (str "/*") && !inStr && !inML then
        (if !(containsSub line (str "*/")) then true else inML)
      else inML
    let inML2 := if containsSub line (str "*/") && inML1 then false else inML1
    let inStr1 :=
      if containsSub line [ '"' ] && (line.count '"') % 2 = 1 then !inStr else inStr
    ccGo rest step.1 inML2 inStr1 step.2

/-- Core of `check_comments`. -/
def commentHits (lines : List Str) : List (Nat × Str) :=
  ccGo (enum1 lines) [] false false []

/-- `check_comments`. -/
def check_comments (file : Option (List Str)) (s : AState) : AState :=
  match file with
  | none => addFnf s "check_comments"
  | some lines => addDiags s (mkDiags .comment_check (commentHits lines))

/-! ## check_variable_declaration -/

/-- Core of the regex `\w+\s+\w+\s*\([^)]*\)\s*{?$` used (after the
optional prefix group) by the `function_pattern` of
`check_variable_declaration`. -/
def fpCore (l : Str) : Bool :=
  let w1 := l.takeWhile isWordChar
  if w1 = [] then false
  else
    let r1 := l.drop w1.length
    let sp := r1.takeWhile pyIsSpace
    if sp = [] then false
    else
      let r2 := r1.drop sp.length
      let w2 := r2.takeWhile isWordChar
      if w2 = [] then false
      else
        match (r2.drop w2.length).dropWhile pyIsSpace with
        | '(' :: r4 =>
          let inner := r4.takeWhile (fun c => c ≠ ')')
          (match r4.drop inner.length with
           | ')' :: r5 =>
             let r6 := r5.dropWhile pyIsSpace
             r6 = [] || r6 = [ '{' ]
           | _ => false)
        | _ => false

/-- One alternative of the optional group `(EXPORT\s+|LOCAL\s+|STATIC\s+)?`. -/
def fpWithKw (kw : Str) (l : Str) : Bool :=
  kw.isPrefixOf l &&
  (let r := l.drop kw.length
   let sp := r.takeWhile pyIsSpace
   sp ≠ [] && fpCore (r.drop sp.length))

/-- `function_pattern.match(line)` of `check_variable_declaration`:
`\s*(EXPORT\s+|LOCAL\s+|STATIC\s+)?\w+\s+\w+\s*\([^)]*\)\s*{?$`, trying the
prefix alternatives in order and then the bare core (regex backtracking). -/
def matchFuncPattern (l : Str) : Bool :=
  let l := l.dropWhile pyIsSpace
  fpWithKw (str "EXPORT") l || fpWithKw (str "LOCAL") l ||
    fpWithKw (str "STATIC") l || fpCore l

/-- Local state of `check_variable_declaration`. -/
structure VDLoc where
  gvd : Bool
  inCDB : Bool
  blockOpen : Int
  initVars : List Str

/-- Tail of one `check_variable_declaration` iteration: the
function-pattern skip and the reserved-type declaration check. -/
def vdCheckDecl (reserved : List Str) (i : Nat) (line : Str) (v : VDLoc)
    (acc : List (Nat × Str)) : List (Nat × Str) :=
  if matchFuncPattern line then acc
  else if !v.gvd && !v.inCDB then
    if reserved.any (fun dt => dt.isPrefixOf (pyStrip line)) then
      match (pySplitWs line).getLast? with
      | some w =>
        let var_name := removeChar ';' w
        if !(v.initVars.contains var_name) && !(pyEndsWith line [ ';' ]) &&
            !(containsSub line [ '=' ]) then
          acc ++ [(i, var_name)]
        else acc
      | none => acc
    else acc
  else acc

/-- Core loop of `check_variable_declaration`.  The second component of the
result records whether the loop was aborted by the `IndexError` that
`line.split("=")[0].strip().split()[-1]` raises when the text before `=`
is blank; the source catches it in the check's own `except Exception`
handler, leaving the records collected so far in place. -/
def vdGo (reserved : List Str) :
    List (Nat × Str) → VDLoc → List (Nat × Str) → List (Nat × Str) × Bool
  | [], _, acc => (acc, false)
  | (i, rawLine) :: rest, v, acc =>
    let line := pyStrip rawLine
    if line = [] then vdGo reserved rest v acc
    else if (str "//").isPrefixOf line || (str "/*").isPrefixOf line then
      vdGo reserved rest v acc
    else
      let v := if (str "#include").isPrefixOf line then { v with gvd := true } else v
      let v :=
        if v.gvd && (str "/* Control Data */").isPrefixOf line then
          { v with gvd := false, inCDB := true }
        else v
      let v :=
        if containsSub line [ '{' ] then { v with blockOpen := v.blockOpen + 1 } else v
      let v :=
        if containsSub line [ '}' ] then { v with blockOpen := v.blockOpen - 1 } else v
      if containsSub line [ '(' ] || containsSub line [ ')' ] then vdGo reserved rest v acc
      else if containsSub line [ '=' ] && pyEndsWith line [ ';' ] then
        match (pySplitWs (pyStrip ((pySplitOn '=' line).headD []))).getLast? with
        | none => (acc, true)
        | some var_name =>
          if containsSub line (str "->") || containsSub line [ '.' ] then
            vdGo reserved rest v acc
          else if v.blockOpen > 0 || !(v.initVars.contains var_name) then
            let v := { v with initVars := v.initVars ++ [var_name] }
            vdGo reserved rest v (vdCheckDecl reserved i line v acc)
          else
            -- the source logs an informational already-initialized note and continues
            vdGo reserved rest v acc
      else vdGo reserved rest v (vdCheckDecl reserved i line v acc)

/-- Core of `check_variable_declaration` against a reserved-type set. -/
def variableDeclarationHits (reserved : List Str) (lines : List Str) :
    List (Nat × Str) × Bool :=
  vdGo reserved (enum1 lines)
    { gvd := false, inCDB := false, blockOpen := 0, initVars := [] } []

/-- `check_variable_declaration`.  On the internal `IndexError` the
already-collected diagnostics and counts are kept and the recovered
exception is logged, as by the check's own `except Exception` clause. -/
def check_variable_declaration (file : Option (List Str)) (s : AState) : AState :=
  match file with
  | none => addFnf s "check_variable_declaration"
  | some lines =>
    let r := variableDeclarationHits s.reserved lines
    let s1 := addDiags s (mkDiags .variable_declarations_check r.1)
    if r.2 then { s1 with errors := s1.errors ++ [.varDeclIndexError] } else s1

/-! ## Unsigned-variable declaration discovery (shared by
`check_unsigned_variables` and `check_unsigned_logic`) -/

/-- One alternative of the declaration pattern
`\b(?:unsigned|UINT8|...)\s+(\w+)\b` at the current position: the keyword
literal, at least one whitespace character, then the captured `\w+`. -/
def uiDeclTryOne (k : Str) (l : Str) : Option (Str × Str) :=
  if k.isPrefixOf l then
    let r1 := l.drop k.length
    let sp := r1.takeWhile pyIsSpace
    if sp = [] then none
    else
      let r2 := r1.drop sp.length
      let w := r2.takeWhile isWordChar
      if w = [] then none else some (w, r2.drop w.length)
  else none

/-- Try the keyword alternatives in list order, requiring the full match to
complete (regex alternation with backtracking). -/
def uiDeclTryKw : List Str → Str → Option (Str × Str)
  | [], _ => none
  | k :: rest, l =>
    match uiDeclTryOne k l with
    | some r => some r
    | none => uiDeclTryKw rest l

/-- Scan for all non-overlapping matches, tracking whether the previous
character is a word character so that the leading `\b` holds; the `\b`
after the captured `\w+` is automatic since the capture is maximal. -/
def findUIDeclsAux : Nat → Bool → Str → List Str
  | 0, _, _ => []
  | _, _, [] => []
  | fuel + 1, prevWord, c :: tl =>
    match (if prevWord then none else uiDeclTryKw UI_VARIABLES (c :: tl)) with
    | some (w, rest) => w :: findUIDeclsAux fuel true rest
    | none => findUIDeclsAux fuel (isWordChar c) tl

/-- `re.findall(declaration_pattern, '\n'.join(lines))`. -/
def findUIDecls (content : Str) : List Str := findUIDeclsAux content.length false content

/-- The joined content both unsigned checks build (`'\n'.join(lines)`,
where the lines already carry their own terminators). -/
def joinedLines (lines : List Str) : Str := List.intercalate [ '\n' ] lines

/-! ## check_unsigned_logic -/

/-- Tail `\s*<=?\s*0` of the unsigned-comparison pattern. -/
def uslTail (l : Str) : Bool :=
  match l.dropWhile pyIsSpace with
  | '<' :: r2 =>
    let r3 := match r2 with | '=' :: t => t | _ => r2
    (match r3.dropWhile pyIsSpace with
     | '0' :: _ => true
     | _ => false)
  | _ => false

/-- Alternatives of the capture group `({0})`: the declared names, or the
single empty alternative when no declaration was found (the source then
compiles `\b()\s*<=?\s*0`). -/
def uslAlternatives (vars : List Str) : List Str := if vars = [] then [[]] else vars

/-- Match attempt at one position: the leading `\b` (exactly one side of
the position is a word character), then the first alternative whose
literal plus the comparison tail completes. -/
def uslHeadWord (l : Str) : Bool :=
  match l with
  | c :: _ => isWordChar c
  | [] => false

def uslAt (vars : List Str) (prevWord : Bool) (l : Str) : Option Str :=
  if prevWord ≠ uslHeadWord l then
    (uslAlternatives vars).findSome? (fun v =>
      if v.isPrefixOf l && uslTail (l.drop v.length) then some v else none)
  else none

/-- Left-to-right `re.search` scan for the unsigned-comparison pattern. -/
def uslSearch (vars : List Str) : Bool → Str → Option Str
  | prevWord, [] => uslAt vars prevWord []
  | prevWord, c :: tl =>
    match uslAt vars prevWord (c :: tl) with
    | some v => some v
    | none => uslSearch vars (isWordChar c) tl

/-- `re.search(check_pattern, line)`, returning the captured group. -/
def searchCheck (vars : List Str) (line : Str) : Option Str := uslSearch vars false line

/-- Core of `check_unsigned_logic`: at most one record per line, carrying
the captured variable name (`match.group(1)`). -/
def unsignedLogicHits (lines : List Str) : List (Nat × Str) :=
  let decls := findUIDecls (joinedLines lines)
  (enum1 lines).filterMap (fun p => (searchCheck decls p.2).map (fun v => (p.1, v)))

/-- `check_unsigned_logic`.  The source accumulates a local `error_count`
and performs `counts['unsigned_logic_check'] += error_count` after the
loop; `addDiags` adds exactly that amount. -/
def check_unsigned_logic (file : Option (List Str)) (s : AState) : AState :=
  match file with
  | none => addFnf s "check_unsigned_logic"
  | some lines => addDiags s (mkDiags .unsigned_logic_check (unsignedLogicHits lines))

/-! ## check_unsigned_variables -/

/-- One alternative of the `nBytes` pattern `\b(unsigned|...)\s+nBytes\b`. -/
def nBytesTryKw (k : Str) (l : Str) : Bool :=
  k.isPrefixOf l &&
  (let r := l.drop k.length
   let sp := r.takeWhile pyIsSpace
   sp ≠ [] &&
   (let r2 := r.drop sp.length
    (str "nBytes").isPrefixOf r2 &&
    (match r2.drop 6 with
     | [] => true
     | c :: _ => !isWordChar c)))

/-- `re.search(nbytes_pattern, line)`, returning the captured data type. -/
def nBytesSearch : Bool → Str → Option Str
  | _, [] => none
  | prevWord, c :: tl =>
    match (if prevWord then none
           else UI_VARIABLES.findSome? (fun k =>
             if nBytesTryKw k (c :: tl) then some k else none)) with
    | some k => some k
    | none => nBytesSearch (isWordChar c) tl

/-- The lazy specifier group `(%d|%i)` of the `sysLog` pattern. -/
def sysLogPct (l : Str) : Option (Str × Str) :=
  if (str "%d").isPrefixOf l then some (str "%d", l.drop 2)
  else if (str "%i").isPrefixOf l then some (str "%i", l.drop 2)
  else none

/-- Tail `\s*(.*?)\)` of the `sysLog` pattern, after the `",` literal:
greedy whitespace, then the lazily captured argument text up to the first
closing parenthesis.  Returns the capture and the remaining text. -/
def sysLogClose (l : Str) : Option (Str × Str) :=
  lazyFindPre (fun c => c ≠ '\n') (fun r2 =>
    match r2 with
    | ')' :: rest => some rest
    | _ => none) (l.dropWhile pyIsSpace)

/-- Continuation after the matched specifier: `(.*?)",` then the closing
tail; lazy scanning with full-completion backtracking. -/
def sysLogAfterPct (afterFs : Str) : Option (Str × Str) :=
  (lazyFindPre (fun c => c ≠ '\n') (fun r2 =>
      if (str "\",").isPrefixOf r2 then sysLogClose (r2.drop 2) else none) afterFs).map
    (fun pr => pr.2)

/-- One match attempt of
`sysLog\("(.*?)(%d|%i)(.*?)",\s*(.*?)\)` at the current position,
returning the specifier (group 2), the argument text (group 4) and the
rest of the line after the match. -/
def sysLogMatchAt (l : Str) : Option ((Str × Str) × Str) :=
  if (str "sysLog(\"").isPrefixOf l then
    (lazyFindPre (fun c => c ≠ '\n') (fun r =>
        (sysLogPct r).bind (fun fsr =>
          (sysLogAfterPct fsr.2).map (fun g4r => (fsr.1, g4r)))) (l.drop 8)).map
      (fun pr => ((pr.2.1, pr.2.2.1), pr.2.2.2))
  else none

/-- `re.finditer(syslog_pattern, line)`: successive non-overlapping
matches. -/
def sysLogFinditer : Nat → Str → List (Str × Str)
  | 0, _ => []
  | _, [] => []
  | fuel + 1, c :: tl =>
    match sysLogMatchAt (c :: tl) with
    | some (m, rest) => m :: sysLogFinditer fuel rest
    | none => sysLogFinditer fuel tl

/-- Records of `check_unsigned_variables` for one line: the `nBytes`
declaration branch, then one record per `sysLog` argument that is a
declared unsigned variable printed with a specifier other than `%u`
(the captured specifier is `%d` or `%i`, so that test always passes, as in
the source). -/
def unsignedVarsLineHits (decls : List Str) (i : Nat) (line : Str) : List (Nat × Str) :=
  let nb :=
    match nBytesSearch false line with
    | some dt => if dt ≠ str "unsigned" then [(i, dt)] else []
    | none => []
  let sl := (sysLogFinditer line.length line).foldl (fun acc m =>
    (pySplitOn ',' m.2).foldl (fun acc arg =>
      if decls.contains (pyStrip arg) && m.1 ≠ str "%u" then acc ++ [(i, pyStrip arg)]
      else acc) acc) []
  nb ++ sl

/-- Core of `check_unsigned_variables`. -/
def unsignedVariablesHits (lines : List Str) : List (Nat × Str) :=
  let decls := findUIDecls (joinedLines lines)
  (enum1 lines).foldl (fun acc p => acc ++ unsignedVarsLineHits decls p.1 p.2) []

/-- `check_unsigned_variables`. -/
def check_unsigned_variables (file : Option (List Str)) (s : AState) : AState :=
  match file with
  | none => addFnf s "check_unsigned_variables"
  | some lines => addDiags s (mkDiags .unsigned_print_check (unsignedVariablesHits lines))

/-! ## check_operator_spacing -/

/-- Search for the format-specifier alternation (`format_specifier_pattern`). -/
def fsSearch (l : Str) : Bool := FORMAT_SPECIFIERS.any (fun fs => containsSub l fs)

/-- `^\s*#(include|pragma)` (the `preprocessor_directive_pattern`). -/
def isPreproc (l : Str) : Bool :=
  let r := l.dropWhile pyIsSpace
  (str "#include").isPrefixOf r || (str "#pragma").isPrefixOf r

/-- Find the first `*/` closing a lazy `/\*.*?\*/` match; `.` does not
cross a newline. -/
def findCloseML : Str → Option Str
  | [] => none
  | c :: tl =>
    if (str "*/").isPrefixOf (c :: tl) then some ((c :: tl).drop 2)
    else if c = '\n' then none
    else findCloseML tl

/-- `multi_line_comment_pattern.sub('', line)`. -/
def removeMLComments : Nat → Str → Str
  | 0, l => l
  | _, [] => []
  | fuel + 1, c :: tl =>
    if (str "/*").isPrefixOf (c :: tl) then
      match findCloseML ((c :: tl).drop 2) with
      | some rest => removeMLComments fuel rest
      | none => c :: removeMLComments fuel tl
    else c :: removeMLComments fuel tl

/-- Search for a two-character pattern. -/
def searchTwoChar (p : Char → Char → Bool) : Str → Bool
  | a :: b :: tl => p a b || searchTwoChar p (b :: tl)
  | _ => false

/-- `incorrect_pointer_pattern = re.compile(r'\*[a-oq-zA-Z]')`. -/
def searchIncorrectPointer (l : Str) : Bool :=
  searchTwoChar (fun a b => a = '*' && ((b.isLower && b ≠ 'p') || pyIsUpper b)) l

/-- `correct_pointer_pattern = re.compile(r'\*p[A-Z]')`. -/
def searchCorrectPointer : Str → Bool
  | a :: b :: c :: tl =>
    (a = '*' && b = 'p' && pyIsUpper c) || searchCorrectPointer (b :: c :: tl)
  | _ => false

/-- `pointer_declaration_pattern = re.compile(r'\*\w+')`. -/
def pointerDeclSearch (l : Str) : Bool := searchTwoChar (fun a b => a = '*' && isWordChar b) l

/-- `operator_pattern.findall(line)`: non-overlapping scan trying the
operator alternatives in table order (the source's `++`/`--` exclusion
filter removes nothing, the table not containing them). -/
def opFindall (l : Str) : List Str := scanAll (fun r => firstPrefix OPERATORS r) l.length l

/-- One position of the spaced-operator search
`(?<!\S)op(?!\S)`: the operator occurs with no non-whitespace character
directly before or after it. -/
def spacedAt (op : Str) (prev : Option Char) (l : Str) : Bool :=
  op.isPrefixOf l &&
  (match prev with | none => true | some c => pyIsSpace c) &&
  (match l.drop op.length with | [] => true | c :: _ => pyIsSpace c)

/-- `re.search(spaced_operator_pattern, line)`. -/
def spacedSearchAux (op : Str) : Option Char → Str → Bool
  | prev, [] => spacedAt op prev []
  | prev, c :: tl => spacedAt op prev (c :: tl) || spacedSearchAux op (some c) tl

/-- Whether some occurrence of the operator in the line is properly
surrounded by whitespace (or line boundaries). -/
def spacedSearch (op : Str) (l : Str) : Bool := spacedSearchAux op none l

/-- Local state of `check_operator_spacing`: the block-comment flag, the
pointer-naming records (logged immediately, as in the source) and the
line numbers collected in `lines_with_errors` (its sorted keys). -/
structure OSLoc where
  inML : Bool
  ptr : List (Nat × Str)
  bad : List Nat

/-- One line of `check_operator_spacing`, with the source's skip order:
block comments, single-line comments and preprocessor directives, format
specifiers, increment/decrement, pointer naming, pointer declarations,
and finally the operator table. -/
def osLine (i : Nat) (rawLine : Str) (o : OSLoc) : OSLoc :=
  if o.inML then
    if containsSub rawLine (str "*/") then { o with inML := false } else o
  else if containsSub rawLine (str "/*") then { o with inML := true }
  else if containsSub rawLine (str "//") || isPreproc rawLine then o
  else if fsSearch rawLine then o
  else
    let line := removeMLComments rawLine.length rawLine
    if containsSub line (str "++") || containsSub line (str "--") then o
    else if searchIncorrectPointer line && !(searchCorrectPointer line) then
      { o with ptr := o.ptr ++ [(i, [])] }
    else if pointerDeclSearch line then o
    else if (opFindall line).any (fun op => !(spacedSearch op line)) then
      { o with bad := o.bad ++ [i] }
    else o

/-- `check_operator_spacing`.  The pointer diagnostics are logged during
the loop, the per-line operator diagnostics after it; the source then
ASSIGNS (`=`, not `+=`) the two local counters into `self.counts`. -/
def check_operator_spacing (file : Option (List Str)) (s : AState) : AState :=
  match file with
  | none => addFnf s "check_operator_spacing"
  | some lines =>
    let o := (enum1 lines).foldl (fun o p => osLine p.1 p.2 o)
      { inML := false, ptr := [], bad := [] }
    let ptrDiags := mkDiags .pointer_naming_check o.ptr
    let opDiags := mkDiags .operator_spacing_check (o.bad.map (fun i => (i, [])))
    { s with diags := s.diags ++ ptrDiags ++ opDiags,
             counts := fun r =>
               if r = .operator_spacing_check then opDiags.length
               else if r = .pointer_naming_check then ptrDiags.length
               else s.counts r }

/-! ## check_address_print_format -/

/-- Characters of the flags class `[-+ 0#]`. -/
def isFlagChar (c : Char) : Bool := c = '-' || c = '+' || c = ' ' || c = '0' || c = '#'

/-- Candidate rests for the greedy `[-+ 0#]{0,3}`, most-consumed first. -/
def flagRests : Nat → Str → List Str
  | 0, l => [l]
  | _ + 1, [] => [[]]
  | n + 1, c :: tl => if isFlagChar c then flagRests n tl ++ [c :: tl] else [c :: tl]

/-- Candidate rests for `(\d+|\*)?`, in regex preference order. -/
def numRests (l : Str) : List Str :=
  let ds := l.takeWhile Char.isDigit
  (if ds = [] then [] else [l.drop ds.length]) ++
    (match l with | '*' :: tl => [tl] | _ => []) ++ [l]

/-- Candidate rests for `(\.\d+|\.\*)?`, in regex preference order. -/
def precRests (l : Str) : List Str :=
  (match l with
   | '.' :: tl =>
     (let ds := tl.takeWhile Char.isDigit
      if ds = [] then [] else [tl.drop ds.length]) ++
       (match tl with | '*' :: tl2 => [tl2] | _ => [])
   | _ => []) ++ [l]

/-- Candidate rests for the greedy `[hl]{0,2}` (case-insensitive when the
enclosing pattern carries `re.IGNORECASE`). -/
def hlRests (ci : Bool) : Nat → Str → List Str
  | 0, l => [l]
  | _ + 1, [] => [[]]
  | n + 1, c :: tl =>
    if (if ci then c.toLower = 'h' || c.toLower = 'l' else c = 'h' || c = 'l') then
      hlRests ci n tl ++ [c :: tl]
    else [c :: tl]

/-- Backtracking match of the common specifier tail after `%`:
`[-+ 0#]{0,3}(\d+|\*)?(\.\d+|\.\*)?[hl]{0,2}` followed by a final
character accepted by `finalOk`. -/
def matchFmtTail (ci : Bool) (finalOk : Char → Bool) (l : Str) : Bool :=
  (flagRests 3 l).any (fun l1 =>
    (numRests l1).any (fun l2 =>
      (precRests l2).any (fun l3 =>
        (hlRests ci 2 l3).any (fun l4 =>
          match l4 with
          | c :: _ => finalOk c
          | [] => false))))

/-- Final character class `[diufFeEgGpoaAcsn]` of `any_format_pattern`. -/
def anyFormatFinal (c : Char) : Bool := (str "diufFeEgGpoaAcsn").contains c

/-- `re.search(any_format_pattern, line)` (case-sensitive). -/
def anyFormatSearch : Str → Bool
  | [] => false
  | c :: tl => (c = '%' && matchFmtTail false anyFormatFinal tl) || anyFormatSearch tl

/-- Tail of `print_pattern` inside the quoted text:
`.*?(addr|address).*?%...[hl]{0,2}x`, case-insensitive, with lazy
scanning (an `addr` prefix also covers the `address` alternative). -/
def printTail (l : Str) : Bool :=
  (lazyFindPre (fun c => c ≠ '\n') (fun r =>
      if ciIsPrefixOf (str "addr") r then
        (lazyFindPre (fun c => c ≠ '\n') (fun r2 =>
            match r2 with
            | '%' :: r3 =>
              if matchFmtTail true (fun c => c.toLower = 'x') r3 then some () else none
            | _ => none) (r.drop 4))
      else none) l).isSome

/-- Function-name alternation of `print_pattern` (lower-cased for the
case-insensitive comparison). -/
def printFuncNames : List Str :=
  [ str "syslog", str "printf", str "sprintf", str "fprintf", str "scanf" ]

/-- One position of the `print_pattern` search:
`(sysLog|printf|sprintf|fprintf|scanf)\s*\("` then the quoted tail. -/
def printPatternAt (l : Str) : Bool :=
  printFuncNames.any (fun f =>
    ciIsPrefixOf f l &&
    (match (l.drop f.length).dropWhile pyIsSpace with
     | '(' :: '"' :: r2 => printTail r2
     | _ => false))

/-- `re.search(print_pattern, line, re.IGNORECASE)`. -/
def printPatternSearch : Str → Bool
  | [] => false
  | c :: tl => printPatternAt (c :: tl) || printPatternSearch tl

/-- Core of `check_address_print_format`: a record for every line on which
the address pattern matches and some `%` specifier matches. -/
def addressPrintHits (lines : List Str) : List (Nat × Str) :=
  (enum1 lines).filterMap (fun p =>
    if printPatternSearch p.2 then
      (if anyFormatSearch p.2 then some (p.1, []) else none)
    else none)

/-- `check_address_print_format`. -/
def check_address_print_format (file : Option (List Str)) (s : AState) : AState :=
  match file with
  | none => addFnf s "check_address_print_format"
  | some lines => addDiags s (mkDiags .address_print_check (addressPrintHits lines))

/-! ## extract_global_declarations -/

/-- One match attempt of the anonymous-aggregate patterns
`KW1\s+KW2\s+\{[^}]*\}\s*(\w+)\s*;` (with `re.IGNORECASE`; the keyword
arguments are given lower-cased), returning the captured name and the rest
of the content. -/
def tsePatStep (kw1 kw2 : Str) (l : Str) : Option (Str × Str) :=
  if ciIsPrefixOf kw1 l then
    let r := l.drop kw1.length
    let sp := r.takeWhile pyIsSpace
    if sp = [] then none
    else
      let r2 := r.drop sp.length
      if ciIsPrefixOf kw2 r2 then
        let r3 := r2.drop kw2.length
        let sp2 := r3.takeWhile pyIsSpace
        if sp2 = [] then none
        else
          match r3.drop sp2.length with
          | '{' :: r4 =>
            let body := r4.takeWhile (fun c => c ≠ '}')
            (match r4.drop body.length with
             | '}' :: r5 =>
               let r6 := r5.dropWhile pyIsSpace
               let w := r6.takeWhile isWordChar
               if w = [] then none
               else
                 (match (r6.drop w.length).dropWhile pyIsSpace with
                  | ';' :: rest => some (w, rest)
                  | _ => none)
             | _ => none)
          | _ => none
      else none
  else none

/-- One match attempt of `KW\s+(\w+)\s+\w+\s*;` (the `static`/`extern`
declaration patterns, `re.IGNORECASE`). -/
def sePatStep (kw : Str) (l : Str) : Option (Str × Str) :=
  if ciIsPrefixOf kw l then
    let r := l.drop kw.length
    let sp := r.takeWhile pyIsSpace
    if sp = [] then none
    else
      let r2 := r.drop sp.length
      let w1 := r2.takeWhile isWordChar
      if w1 = [] then none
      else
        let r3 := r2.drop w1.length
        let sp2 := r3.takeWhile pyIsSpace
        if sp2 = [] then none
        else
          let r4 := r3.drop sp2.length
          let w2 := r4.takeWhile isWordChar
          if w2 = [] then none
          else
            match (r4.drop w2.length).dropWhile pyIsSpace with
            | ';' :: rest => some (w1, rest)
            | _ => none
  else none

/-- One parameter `\w+\s+\w+` of the function pattern, returning the
consumed text and the rest. -/
def parseParamPair (l : Str) : Option (Str × Str) :=
  let a := l.takeWhile isWordChar
  if a = [] then none
  else
    let r := l.drop a.length
    let sp := r.takeWhile pyIsSpace
    if sp = [] then none
    else
      let r2 := r.drop sp.length
      let b := r2.takeWhile isWordChar
      if b = [] then none else some (a ++ sp ++ b, r2.drop b.length)

/-- One repetition of the starred group `(,\s*\w+\s+\w+)`. -/
def parseStarGroup (l : Str) : Option (Str × Str) :=
  match l with
  | ',' :: r =>
    let sp := r.takeWhile pyIsSpace
    (parseParamPair (r.drop sp.length)).map (fun pr => (',' :: (sp ++ pr.1), pr.2))
  | _ => none

/-- All repetitions of the starred group: the concatenated text, the text
of the last repetition (the empty string when there is none, as Python's
`findall` reports an unmatched group) and the rest. -/
def parseStars : Nat → Str → Str × Str × Str
  | 0, l => ([], [], l)
  | fuel + 1, l =>
    match parseStarGroup l with
    | some (g, rest) =>
      let r := parseStars fuel rest
      (g ++ r.1, if r.1 = [] then g else r.2.1, r.2.2)
    | none => ([], [], l)

/-- One match attempt of the function pattern
`(\w+)\s+\w+\s*\((\w+\s+\w+(,\s*\w+\s+\w+)*)\)`, returning the three
groups (return type, parameter text, last repeated group) and the rest. -/
def funcPatStep (l : Str) : Option ((Str × Str × Str) × Str) :=
  let w1 := l.takeWhile isWordChar
  if w1 = [] then none
  else
    let r1 := l.drop w1.length
    let sp1 := r1.takeWhile pyIsSpace
    if sp1 = [] then none
    else
      let r2 := r1.drop sp1.length
      let w2 := r2.takeWhile isWordChar
      if w2 = [] then none
      else
        match (r2.drop w2.length).dropWhile pyIsSpace with
        | '(' :: r3 =>
          (parseParamPair r3).bind (fun pr =>
            let st := parseStars r3.length pr.2
            match st.2.2 with
            | ')' :: rest => some ((w1, pr.1 ++ st.1, st.2.1), rest)
            | _ => none)
        | _ => none

/-- The candidate names found by the six `patterns`, applied to the whole
file content in the source's order. -/
def extractCandidates (content : Str) : List Str :=
  scanAll (tsePatStep (str "typedef") (str "struct")) content.length content ++
    scanAll (tsePatStep (str "local") (str "struct")) content.length content ++
    scanAll (tsePatStep (str "typedef") (str "enum")) content.length content ++
    scanAll (tsePatStep (str "typedef") (str "union")) content.length content ++
    scanAll (sePatStep (str "static")) content.length content ++
    scanAll (sePatStep (str "extern")) content.length content

/-- `func_pattern.findall(content)`. -/
def funcMatches (content : Str) : List (Str × Str × Str) :=
  scanAll funcPatStep content.length content

/-- `is_valid_type_name`: not a known keyword and not already reserved. -/
def is_valid_type_name (R : List Str) (t : Str) : Bool :=
  !(KNOWN_KEYWORDS.contains t || R.contains t)

/-- Guarded insertion into the reserved-type set. -/
def insertType (R : List Str) (t : Str) : List Str :=
  if is_valid_type_name R t then R ++ [t] else R

/-- `extract_global_declarations` over the whole file content: the six
declaration patterns first, then the function-signature pass (whose tuple
unpacking binds the parameter variable to the LAST repeated group, group 3,
exactly as `return_type, func_name, params = match` does on the
three-group `findall` tuples). -/
def extract_global_declarations (content : Str) (R : List Str) : List Str :=
  let R1 := (extractCandidates content).foldl (fun R m => insertType R (pyStrip m)) R
  (funcMatches content).foldl (fun R m =>
    let R2 := insertType R m.1
    (pySplitOn ',' m.2.2).foldl (fun R param =>
      match pySplitWs (pyStrip param) with
      | t :: _ :: _ => insertType R t
      | _ => R) R2) R1

/-- Wrapper running the extraction inside the analysis pipeline; the file
content is the concatenation of the lines (`script_file.read()`). -/
def extract_global_declarations_check (file : Option (List Str)) (s : AState) : AState :=
  match file with
  | none => addFnf s "extract_global_declarations"
  | some lines =>
    { s with reserved := extract_global_declarations (List.flatten lines) s.reserved }

/-! ## run_analysis -/

/-- Lower-cased file extension variants distinguished by `run_analysis`. -/
inductive FileExt where
  | h
  | c
  | other
  deriving DecidableEq

/-- The ordered `.c` pipeline of `run_analysis`: each member sits in its
own `try/except` block (and additionally catches its exceptions
internally), so each is a total state transformer. -/
def cPipeline : List (Option (List Str) → AState → AState) :=
  [ extract_global_declarations_check, check_line_length_limit,
    check_brace_placement, check_variable_declaration,
    check_naming_conventions, check_spacing_between_routines,
    check_hex_values, check_comments, check_consistency,
    check_excess_whitespace, check_unsigned_variables,
    check_operator_spacing, check_unsigned_logic,
    check_address_print_format ]

/-- The ordered `.h` pipeline of `run_analysis`. -/
def hPipeline : List (Option (List Str) → AState → AState) :=
  [ check_name_replace, check_line_length_limit, check_comments ]

/-- `run_analysis`: run the pipeline selected by the extension on the
(possibly missing) file, then `add_summary_to_log` and `send_email`
unconditionally hand the report (counters plus log) to the reporting
collaborator. -/
def run_analysis (file : Option (List Str)) (ext : FileExt) : AState :=
  let checks := match ext with
    | .h => hPipeline
    | .c => cPipeline
    | .other => []
  let s := checks.foldl (fun s chk => chk file s) initState
  { s with emailed := true }

/-! ## Counting infrastructure -/

/-- All fifteen rule identifiers, in the order of the `self.counts`
dictionary. -/
def allRules : List RuleId :=
  [ .line_length_limit_check, .excess_whitespace_check, .operator_spacing_check,
    .pointer_naming_check, .address_print_check, .unsigned_print_check,
    .comment_check, .hex_value_check, .variable_declarations_check,
    .naming_conventions_check, .unsigned_logic_check, .replace_name_check,
    .spacing_between_routines_check, .brace_placement_check, .consistency_check ]

/-- `sum(self.counts.values())`. -/
def sumCounts (c : RuleId → Nat) : Nat := (allRules.map c).sum

theorem countRule_append (a b : List Diag) (r : RuleId) :
    countRule (a ++ b) r = countRule a r + countRule b r := by
  simp [countRule, List.filter_append]

theorem countRule_cons (d : Diag) (tl : List Diag) (r : RuleId) :
    countRule (d :: tl) r = (if d.rule = r then 1 else 0) + countRule tl r := by
  by_cases h : d.rule = r
  · simp [countRule, List.filter_cons, h]
    omega
  · simp [countRule, List.filter_cons, h]

theorem countRule_mkDiags (r r' : RuleId) (xs : List (Nat × Str)) :
    countRule (mkDiags r xs) r' = if r = r' then xs.length else 0 := by
  induction xs with
  | nil => simp [countRule, mkDiags]
  | cons x tl ih =>
    simp only [mkDiags, List.map_cons] at *
    rw [countRule_cons]
    by_cases h : r = r' <;> simp [h] at ih ⊢ <;> omega

theorem sum_countRule (ds : List Diag) :
    sumCounts (fun r => countRule ds r) = ds.length := by
  induction ds with
  | nil => simp [sumCounts, allRules, countRule]
  | cons d tl ih =>
    simp only [sumCounts, allRules, List.map_cons, List.map_nil, List.sum_cons,
      List.sum_nil] at ih ⊢
    rw [countRule_cons, countRule_cons, countRule_cons, countRule_cons,
      countRule_cons, countRule_cons, countRule_cons, countRule_cons,
      countRule_cons, countRule_cons, countRule_cons, countRule_cons,
      countRule_cons, countRule_cons, countRule_cons]
    cases d.rule <;> simp <;> omega

/-- The central bookkeeping invariant: every counter equals the number of
emitted diagnostics carrying its rule id. -/
def CountsInv (s : AState) : Prop := ∀ r, s.counts r = countRule s.diags r

/-- Strengthened invariant holding up to the point where
`check_operator_spacing` runs: the two counters that check ASSIGNS
(rather than increments) have no diagnostics yet. -/
def QI (s : AState) : Prop :=
  CountsInv s ∧ countRule s.diags .operator_spacing_check = 0 ∧
    countRule s.diags .pointer_naming_check = 0

theorem CountsInv_initState : CountsInv initState := by
  intro r; simp [initState, countRule]

theorem QI_initState : QI initState :=
  ⟨CountsInv_initState, rfl, rfl⟩

theorem CountsInv_addDiags (s : AState) (ds : List Diag) (h : CountsInv s) :
    CountsInv (addDiags s ds) := by
  intro r; simp [addDiags, countRule_append, h r]

theorem CountsInv_addFnf (s : AState) (n : String) (h : CountsInv s) : CountsInv (addFnf s n) := h

theorem QI_addFnf (s : AState) (n : String) (h : QI s) : QI (addFnf s n) := h

theorem QI_addDiags_own (s : AState) (r : RuleId) (xs : List (Nat × Str))
    (hop : r ≠ .operator_spacing_check) (hptr : r ≠ .pointer_naming_check)
    (h : QI s) : QI (addDiags s (mkDiags r xs)) := by
  obtain ⟨h1, h2, h3⟩ := h
  refine ⟨CountsInv_addDiags s _ h1, ?_, ?_⟩ <;>
    simp [addDiags, countRule_append, countRule_mkDiags, h2, h3, hop, hptr]

/-! ## Per-check preservation lemmas -/

theorem extract_QI (f : Option (List Str)) (s : AState) (h : QI s) :
    QI (extract_global_declarations_check f s) := by
  cases f with
  | none => exact QI_addFnf s _ h
  | some lines => exact h

theorem line_length_QI (f : Option (List Str)) (s : AState) (h : QI s) :
    QI (check_line_length_limit f s) := by
  cases f with
  | none => exact QI_addFnf s _ h
  | some lines => exact QI_addDiags_own s _ _ (by decide) (by decide) h

theorem brace_QI (f : Option (List Str)) (s : AState) (h : QI s) :
    QI (check_brace_placement f s) := by
  cases f with
  | none => exact QI_addFnf s _ h
  | some lines => exact QI_addDiags_own s _ _ (by decide) (by decide) h

theorem var_decl_QI (f : Option (List Str)) (s : AState) (h : QI s) :
    QI (check_variable_declaration f s) := by
  cases f with
  | none => exact QI_addFnf s _ h
  | some lines =>
    have h1 := QI_addDiags_own s .variable_declarations_check
      (variableDeclarationHits s.reserved lines).1 (by decide) (by decide) h
    simp only [check_variable_declaration]
    split
    · exact h1
    · exact h1

theorem naming_QI (f : Option (List Str)) (s : AState) (h : QI s) :
    QI (check_naming_conventions f s) := by
  cases f with
  | none => exact QI_addFnf s _ h
  | some lines => exact QI_addDiags_own s _ _ (by decide) (by decide) h

theorem spacing_QI (f : Option (List Str)) (s : AState) (h : QI s) :
    QI (check_spacing_between_routines f s) := by
  cases f with
  | none => exact QI_addFnf s _ h
  | some lines => exact QI_addDiags_own s _ _ (by decide) (by decide) h

theorem hex_QI (f : Option (List Str)) (s : AState) (h : QI s) :
    QI (check_hex_values f s) := by
  cases f with
  | none => exact QI_addFnf s _ h
  | some lines => exact QI_addDiags_own s _ _ (by decide) (by decide) h

theorem comments_QI (f : Option (List Str)) (s : AState) (h : QI s) :
    QI (check_comments f s) := by
  cases f with
  | none => exact QI_addFnf s _ h
  | some lines => exact QI_addDiags_own s _ _ (by decide) (by decide) h

theorem consistency_QI (f : Option (List Str)) (s : AState) (h : QI s) :
    QI (check_consistency f s) := by
  cases f with
  | none => exact QI_addFnf s _ h
  | some lines => exact QI_addDiags_own s _ _ (by decide) (by decide) h

theorem excess_QI (f : Option (List Str)) (s : AState) (h : QI s) :
    QI (check_excess_whitespace f s) := by
  cases f with
  | none => exact QI_addFnf s _ h
  | some lines => exact QI_addDiags_own s _ _ (by decide) (by decide) h

theorem unsigned_vars_QI (f : Option (List Str)) (s : AState) (h : QI s) :
    QI (check_unsigned_variables f s) := by
  cases f with
  | none => exact QI_addFnf s _ h
  | some lines => exact QI_addDiags_own s _ _ (by decide) (by decide) h

theorem name_replace_QI (f : Option (List Str)) (s : AState) (h : QI s) :
    QI (check_name_replace f s) := by
  cases f with
  | none => exact QI_addFnf s _ h
  | some lines => exact QI_addDiags_own s _ _ (by decide) (by decide) h

/-- `check_operator_spacing` assigns its two counters; under `QI` (no
prior diagnostics for those two rules) the assignments land exactly on the
diagnostic counts, so `Inv` holds afterwards. -/
theorem operator_spacing_CountsInv (f : Option (List Str)) (s : AState) (h : QI s) :
    CountsInv (check_operator_spacing f s) := by
  obtain ⟨h1, h2, h3⟩ := h
  cases f with
  | none => exact CountsInv_addFnf s _ h1
  | some lines =>
    intro r
    simp only [check_operator_spacing]
    rw [countRule_append, countRule_append, countRule_mkDiags, countRule_mkDiags]
    by_cases hop : r = .operator_spacing_check
    · subst hop
      simp [mkDiags, h2]
    · by_cases hptr : r = .pointer_naming_check
      · subst hptr
        simp [mkDiags, h3, hop]
      · have hop' : RuleId.operator_spacing_check ≠ r := fun hh => hop hh.symm
        have hptr' : RuleId.pointer_naming_check ≠ r := fun hh => hptr hh.symm
        simp [h1 r, hop, hptr, hop', hptr']

theorem unsigned_logic_CountsInv (f : Option (List Str)) (s : AState) (h : CountsInv s) :
    CountsInv (check_unsigned_logic f s) := by
  cases f with
  | none => exact CountsInv_addFnf s _ h
  | some lines => exact CountsInv_addDiags s _ h

theorem address_CountsInv (f : Option (List Str)) (s : AState) (h : CountsInv s) :
    CountsInv (check_address_print_format f s) := by
  cases f with
  | none => exact CountsInv_addFnf s _ h
  | some lines => exact CountsInv_addDiags s _ h

/-- The bookkeeping invariant holds for the final state of every run. -/
theorem run_analysis_CountsInv (file : Option (List Str)) (ext : FileExt) :
    CountsInv (run_analysis file ext) := by
  cases ext with
  | h =>
    have q := comments_QI file _ (line_length_QI file _
      (name_replace_QI file _ QI_initState))
    exact fun r => q.1 r
  | c =>
    have q := unsigned_vars_QI file _ (excess_QI file _ (consistency_QI file _
      (comments_QI file _ (hex_QI file _ (spacing_QI file _ (naming_QI file _
      (var_decl_QI file _ (brace_QI file _ (line_length_QI file _
      (extract_QI file _ QI_initState))))))))))
    have i := address_CountsInv file _ (unsigned_logic_CountsInv file _
      (operator_spacing_CountsInv file _ q))
    exact fun r => i r
  | other => exact fun r => CountsInv_initState r

/-! ## Claim theorems -/

/-- C1: for every analyzed file, the sum of all per-rule counters in the
final report equals the total number of diagnostics emitted, and each
individual counter equals the number of diagnostics carrying its rule id;
this covers the runs in which `check_variable_declaration`'s recoverable
internal exception fires, since its already-recorded diagnostics and counts are
merged in lockstep before the loop aborts. -/
theorem c1_counters_match_diagnostics (file : Option (List Str)) (ext : FileExt) :
    sumCounts (run_analysis file ext).counts = (run_analysis file ext).diags.length ∧
    ∀ r, (run_analysis file ext).counts r =
      countRule (run_analysis file ext).diags r := by
  have h := run_analysis_CountsInv file ext
  refine ⟨?_, h⟩
  have hc : sumCounts (run_analysis file ext).counts
      = sumCounts (fun r => countRule (run_analysis file ext).diags r) := by
    simp only [sumCounts]
    exact congrArg List.sum (List.map_congr_left (fun r _ => h r))
  rw [hc, sum_countRule]

/-- C3: the line-length rule flags a line exactly when the raw line string
(as `readlines()` returns it, line terminator included) is longer than 85
characters, statelessly per line; a raw line of exactly 85 characters
yields no diagnostic and one of 86 characters yields exactly one. -/
theorem c3_line_length_iff_over_85 (lines : List Str) (s : AState) :
    ((check_line_length_limit (some lines) s).diags = s.diags ++
      (enum1 lines).filterMap (fun p =>
        if ALLOWED_CHAR_COUNT < p.2.length then
          some { rule := RuleId.line_length_limit_check, line := p.1, info := [] }
        else none)) ∧
    (check_line_length_limit (some [List.replicate 85 'a']) initState).diags = [] ∧
    (check_line_length_limit (some [List.replicate 86 'a']) initState).diags =
      [ { rule := RuleId.line_length_limit_check, line := 1, info := [] } ] := by
  refine ⟨?_, by decide, by decide⟩
  simp only [check_line_length_limit, addDiags, mkDiags, lineLengthHits,
    List.map_filterMap]
  congr 1
  apply List.filterMap_congr
  intro p _
  split <;> simp

/-- C4: on the two-line input `if (x)` / `{` the brace-placement rule of
the code emits NO diagnostic (its stack is pushed only in the branch where
an opening brace is already present on the keyword line, so a brace on the
following line is never flagged), and on `if (x) {` it also emits none;
the spec and the rule's own log message require exactly one diagnostic for
the first input. -/
theorem c4_brace_next_line_unflagged :
    (check_brace_placement (some [ str "if (x)\n", '{' :: str "\n" ])
        initState).counts RuleId.brace_placement_check = 0 ∧
    (check_brace_placement (some [ str "if (x) " ++ ('{' :: str "\n") ])
        initState).counts RuleId.brace_placement_check = 0 := by
  constructor <;> decide

/-! ## The comment-skip fold reduced to the surviving-line list -/

theorem cmFold_collect_acc (xs : List (Nat × Str)) :
    ∀ (m : Bool) (acc : List (Nat × Str)),
      (cmFold (fun i l a => a ++ [(i, l)]) xs (m, acc)).2 =
        acc ++ (cmFold (fun i l a => a ++ [(i, l)]) xs (m, [])).2 := by
  induction xs with
  | nil => intro m acc; simp [cmFold]
  | cons x tl ih =>
    intro m acc
    obtain ⟨i, line⟩ := x
    simp only [cmFold]
    split
    · rw [ih, ih]
    · rw [ih ((commentSkipStep m line).1) ([] ++ [(i, line)]),
        ih ((commentSkipStep m line).1) (acc ++ [(i, line)])]
      simp

theorem cmFold_eq_foldl (body : Nat → Str → σ → σ) (xs : List (Nat × Str)) :
    ∀ (m : Bool) (st : σ),
      (cmFold body xs (m, st)).2 =
        ((cmFold (fun i l a => a ++ [(i, l)]) xs (m, [])).2).foldl
          (fun st p => body p.1 p.2 st) st := by
  induction xs with
  | nil => intro m st; simp [cmFold]
  | cons x tl ih =>
    intro m st
    obtain ⟨i, line⟩ := x
    simp only [cmFold]
    split
    · exact ih _ _
    · rw [ih, cmFold_collect_acc tl ((commentSkipStep m line).1) ([] ++ [(i, line)])]
      simp

theorem foldl_append_eq_flatten (f : (Nat × Str) → List α) (xs : List (Nat × Str)) :
    ∀ acc : List α,
      xs.foldl (fun acc p => acc ++ f p) acc = acc ++ (xs.map f).flatten := by
  induction xs with
  | nil => intro acc; simp
  | cons x tl ih => intro acc; simp [ih]

/-! ## Consistency-check analysis (C5) -/

/-- A line recorded as CRLF by `check_consistency`. -/
def lineCRLF (l : Str) : Bool := containsSub l (str "\r\n")

/-- A line recorded as LF by `check_consistency`: it contains a newline
but no CRLF (the `elif`). -/
def lineLFonly (l : Str) : Bool :=
  !containsSub l (str "\r\n") && containsSub l [ '\n' ]

theorem endings_foldl (ns : List (Nat × Str)) :
    ∀ e : Bool × Bool,
      ns.foldl (fun e p => endingsStep p.2 e) e =
        (e.1 || ns.any (fun p => lineCRLF p.2),
         e.2 || ns.any (fun p => lineLFonly p.2)) := by
  induction ns with
  | nil => intro e; simp
  | cons x tl ih =>
    intro e
    simp only [List.foldl_cons, List.any_cons, ih]
    by_cases h1 : containsSub x.2 (str "\r\n")
    · simp [endingsStep, lineCRLF, lineLFonly, h1, Bool.or_assoc]
    · by_cases h2 : containsSub x.2 [ '\n' ] <;>
        simp [endingsStep, lineCRLF, lineLFonly, h1, h2, Bool.or_assoc]

theorem endingsSeen_eq (lines : List Str) :
    endingsSeen lines =
      ((nonSkippedLines lines).any (fun p => lineCRLF p.2),
       (nonSkippedLines lines).any (fun p => lineLFonly p.2)) := by
  unfold endingsSeen nonSkippedLines
  rw [cmFold_eq_foldl, endings_foldl]
  simp

/-- C5 (amended): the consistency rule emits exactly one mixed-line-ending
diagnostic when, among the lines it actually scans (a line inside a block
comment, containing `/*`, or starting with `//` is skipped), at least one
is CRLF-terminated and at least one is LF-terminated; for such files the
diagnostic count is one regardless of file length. -/
theorem c5_amended_mixed_endings_on_scanned_lines (lines : List Str) (s : AState)
    (h1 : ∃ p ∈ nonSkippedLines lines, lineCRLF p.2 = true)
    (h2 : ∃ p ∈ nonSkippedLines lines, lineLFonly p.2 = true) :
    (check_consistency (some lines) s).diags = s.diags ++
      [ { rule := RuleId.consistency_check, line := 0, info := [] } ] ∧
    (check_consistency (some lines) s).counts RuleId.consistency_check =
      s.counts RuleId.consistency_check + 1 := by
  have e1 : (nonSkippedLines lines).any (fun p => lineCRLF p.2) = true :=
    List.any_eq_true.mpr (by
      obtain ⟨p, hp, hc⟩ := h1
      exact ⟨p, hp, hc⟩)
  have e2 : (nonSkippedLines lines).any (fun p => lineLFonly p.2) = true :=
    List.any_eq_true.mpr (by
      obtain ⟨p, hp, hc⟩ := h2
      exact ⟨p, hp, hc⟩)
  have he : endingsSeen lines = (true, true) := by
    rw [endingsSeen_eq, e1, e2]
  constructor
  · simp [check_consistency, he, addDiags, mkDiags]
  · simp only [check_consistency, he, addDiags]
    rw [countRule_mkDiags]
    simp

/-- C5 (counterexample): a file whose only CRLF line starts with `//` has
one CRLF-terminated line and one LF-terminated line, yet the consistency
rule emits zero diagnostics, because the CRLF line is comment-skipped
before the line-ending test. -/
theorem c5_counterexample_comment_skipped_crlf :
    lineCRLF (str "// a\r\n") = true ∧
    lineLFonly (str "b\n") = true ∧
    (check_consistency (some [ str "// a\r\n", str "b\n" ]) initState).diags = [] ∧
    (check_consistency (some [ str "// a\r\n", str "b\n" ]) initState).counts
      RuleId.consistency_check = 0 := by
  refine ⟨by decide, by decide, by decide, by decide⟩

/-- C5 (witness): a two-line file whose CRLF and LF lines are both scanned
gets exactly one consistency diagnostic. -/
theorem c5_amended_witness :
    (check_consistency (some [ str "a\r\n", str "b\n" ]) initState).diags =
      initState.diags ++ [ { rule := RuleId.consistency_check, line := 0, info := [] } ] :=
  (c5_amended_mixed_endings_on_scanned_lines [ str "a\r\n", str "b\n" ] initState
    (by decide) (by decide)).1

/-! ## Rule-fault behavior (C2) -/

/-- Input making `check_variable_declaration` raise its internal
`IndexError`: the second line `= x;` has only blank text before `=`, so
`line.split("=")[0].strip().split()[-1]` indexes an empty list; the first
line has already produced one variable-declaration diagnostic, and the
third line carries a hex violation a later rule still reports. -/
def c2FaultFile : List Str := [ str "int x\n", str "= x;\n", str "y = 0xFF;\n" ]

/-- C2 (counterexample): on `c2FaultFile` the variable-declaration rule
faults mid-run; the fault is caught and logged, all later rules still run
(the hex rule reports line 3) and the run still emails its report — but
the faulting rule's counter is 1, not 0, because the count recorded before
the fault persists. -/
theorem c2_counterexample_faulting_rule_nonzero_count :
    (run_analysis (some c2FaultFile) FileExt.c).errors = [ .varDeclIndexError ] ∧
    (run_analysis (some c2FaultFile) FileExt.c).counts
      RuleId.variable_declarations_check = 1 ∧
    (run_analysis (some c2FaultFile) FileExt.c).counts RuleId.hex_value_check = 1 ∧
    (run_analysis (some c2FaultFile) FileExt.c).emailed = true := by
  refine ⟨by decide, by decide, by decide, rfl⟩

/-- C2 (amended): a rule exception is caught and logged at the rule
boundary, every other rule still runs and the run still produces its final
report; the faulting rule keeps the diagnostics and counts recorded before
the fault (they are not reset to zero, and need not be zero). -/
theorem c2_amended_fault_isolation (lines : List Str) (s : AState) :
    (run_analysis (some lines) FileExt.c).emailed = true ∧
    (∀ r, s.counts r ≤ (check_variable_declaration (some lines) s).counts r) ∧
    (s.diags <+: (check_variable_declaration (some lines) s).diags) ∧
    ((variableDeclarationHits s.reserved lines).2 = true →
      LogEvent.varDeclIndexError ∈ (check_variable_declaration (some lines) s).errors) := by
  refine ⟨rfl, ?_, ?_, ?_⟩
  · intro r
    simp only [check_variable_declaration]
    split <;> simp [addDiags]
  · simp only [check_variable_declaration]
    split <;> simp [addDiags]
  · intro hf
    simp [check_variable_declaration, hf, addDiags]

/-- C2 (witness): a file whose first line is `= y;` makes the rule fault
immediately, and the recovered exception is logged. -/
theorem c2_amended_witness :
    LogEvent.varDeclIndexError ∈
      (check_variable_declaration (some [ str "= y;\n" ]) initState).errors :=
  (c2_amended_fault_isolation [ str "= y;\n" ] initState).2.2.2 (by decide)

/-! ## Missing input file (C6) -/

/-- C6 (counterexample): with a missing `.c` input file the run does NOT
abort with a single fatal error: every one of the fourteen pipeline
members logs its own `FileNotFoundError`, and the run still completes,
handing the reporting collaborator a report whose counters are all zero. -/
theorem c6_counterexample_missing_file_not_fatal :
    (run_analysis none FileExt.c).errors =
      [ .fileNotFound "extract_global_declarations",
        .fileNotFound "check_line_length_limit",
        .fileNotFound "check_brace_placement",
        .fileNotFound "check_variable_declaration",
        .fileNotFound "check_naming_conventions",
        .fileNotFound "check_spacing_between_routines",
        .fileNotFound "check_hex_values",
        .fileNotFound "check_comments",
        .fileNotFound "check_consistency",
        .fileNotFound "check_excess_whitespace",
        .fileNotFound "check_unsigned_variables",
        .fileNotFound "check_operator_spacing",
        .fileNotFound "check_unsigned_logic",
        .fileNotFound "check_address_print_format" ] ∧
    (run_analysis none FileExt.c).emailed = true ∧
    2 ≤ (run_analysis none FileExt.c).errors.length := by
  refine ⟨by decide, rfl, by decide⟩

/-- C6 (amended): a missing input file is not fatal; each rule of the
selected pipeline logs its own file-not-found error and contributes zero,
no diagnostic is emitted, and the run still completes and hands the
reporting collaborator a report with all counters zero, for every
extension variant. -/
theorem c6_amended_missing_file_degrades :
    ((run_analysis none FileExt.c).diags = [] ∧
      sumCounts (run_analysis none FileExt.c).counts = 0 ∧
      (run_analysis none FileExt.c).emailed = true ∧
      (run_analysis none FileExt.c).errors.length = 14 ∧
      (run_analysis none FileExt.c).errors.all
        (fun e => match e with | .fileNotFound _ => true | _ => false) = true) ∧
    ((run_analysis none FileExt.h).diags = [] ∧
      sumCounts (run_analysis none FileExt.h).counts = 0 ∧
      (run_analysis none FileExt.h).emailed = true ∧
      (run_analysis none FileExt.h).errors.length = 3) ∧
    ((run_analysis none FileExt.other).diags = [] ∧
      sumCounts (run_analysis none FileExt.other).counts = 0 ∧
      (run_analysis none FileExt.other).emailed = true ∧
      (run_analysis none FileExt.other).errors = []) := by
  exact ⟨⟨by decide, by decide, rfl, by decide, by decide⟩,
    ⟨by decide, by decide, rfl, by decide⟩,
    ⟨by decide, by decide, rfl, by decide⟩⟩

/-! ## Hex-casing rule (C7) -/

/-- C7: the hex rule flags, on every line it scans (comment lines are
skipped), exactly the `0x[A-F0-9]+` tokens containing an upper-case
character, one diagnostic per token; `x = 0xFF;` yields one hex diagnostic
and `x = 0xff;` yields zero (lower-case `f` is not in the character
class, so `0xff` is not even matched). -/
theorem c7_hex_upper_tokens_flagged (lines : List Str) (s : AState) :
    ((check_hex_values (some lines) s).diags = s.diags ++
      ((nonSkippedLines lines).map (fun p =>
        ((hexFindall p.2).filter (fun hv => hv.any pyIsUpper)).map
          (fun hv => { rule := RuleId.hex_value_check, line := p.1, info := hv }))).flatten) ∧
    (check_hex_values (some [ str "x = 0xFF;\n" ]) initState).counts
      RuleId.hex_value_check = 1 ∧
    (check_hex_values (some [ str "x = 0xff;\n" ]) initState).counts
      RuleId.hex_value_check = 0 := by
  refine ⟨?_, by decide, by decide⟩
  have hh : hexHits lines =
      ((nonSkippedLines lines).map (fun p => hexLineHits p.1 p.2)).flatten := by
    unfold hexHits nonSkippedLines
    rw [cmFold_eq_foldl]
    exact foldl_append_eq_flatten _ _ []
  simp only [check_hex_values, addDiags, mkDiags, hh, List.map_flatten, List.map_map]
  congr 2
  apply List.map_congr_left
  intro p _
  simp [Function.comp, hexLineHits, List.map_map]

/-! ## Unsigned-logic capture membership (C8) -/

theorem uslAt_mem (vars : List Str) (pw : Bool) (l : Str) (v : Str)
    (h : uslAt vars pw l = some v) : v ∈ uslAlternatives vars := by
  unfold uslAt at h
  split at h
  · obtain ⟨a, ha, hfa⟩ := List.exists_of_findSome?_eq_some h
    split at hfa
    · cases hfa; exact ha
    · cases hfa
  · cases h

theorem uslSearch_mem (vars : List Str) :
    ∀ (l : Str) (pw : Bool) (v : Str),
      uslSearch vars pw l = some v → v ∈ uslAlternatives vars := by
  intro l
  induction l with
  | nil => intro pw v h; exact uslAt_mem vars pw [] v h
  | cons c tl ih =>
    intro pw v h
    simp only [uslSearch] at h
    cases hA : uslAt vars pw (c :: tl) with
    | some w =>
      rw [hA] at h
      cases h
      exact uslAt_mem _ _ _ _ hA
    | none =>
      rw [hA] at h
      exact ih _ _ h

/-- C8: on the file `UINT32 count;` / `count <= 0` the unsigned-logic rule
emits exactly one diagnostic, on line 2, referencing `count`; and in
general, whenever at least one unsigned-typed declaration exists, every
diagnostic this rule emits references one of the declared names. -/
theorem c8_unsigned_comparison_flagged :
    ((check_unsigned_logic (some [ str "UINT32 count;\n", str "count <= 0\n" ])
        initState).diags =
      [ { rule := RuleId.unsigned_logic_check, line := 2, info := str "count" } ]) ∧
    ((check_unsigned_logic (some [ str "UINT32 count;\n", str "count <= 0\n" ])
        initState).counts RuleId.unsigned_logic_check = 1) ∧
    (∀ (lines : List Str) (d : Nat × Str),
      d ∈ unsignedLogicHits lines →
      findUIDecls (joinedLines lines) ≠ [] →
      d.2 ∈ findUIDecls (joinedLines lines)) := by
  refine ⟨by decide, by decide, ?_⟩
  intro lines d hd hne
  simp only [unsignedLogicHits, List.mem_filterMap] at hd
  obtain ⟨p, hp, hsc⟩ := hd
  cases hv : searchCheck (findUIDecls (joinedLines lines)) p.2 with
  | none => rw [hv] at hsc; cases hsc
  | some v =>
    rw [hv] at hsc
    cases hsc
    have hm := uslSearch_mem _ _ _ _ hv
    simpa [uslAlternatives, hne] using hm

/-- C8 (witness): the general clause applied to the concrete file. -/
theorem c8_witness :
    ((2, str "count") : Nat × Str).2 ∈
      findUIDecls (joinedLines [ str "UINT32 count;\n", str "count <= 0\n" ]) :=
  c8_unsigned_comparison_flagged.2.2
    [ str "UINT32 count;\n", str "count <= 0\n" ] (2, str "count")
    (by decide) (by decide)

/-! ## Empty-alternation behavior of the unsigned-logic pattern (C10) -/

theorem isWordChar_not_space (c : Char) (h : isWordChar c = true) :
    pyIsSpace c = false := by
  cases hc : pyIsSpace c
  · rfl
  · exfalso
    simp only [pyIsSpace, Bool.or_eq_true, decide_eq_true_eq] at hc
    rcases hc with ((((rfl | rfl) | rfl) | rfl) | rfl) | rfl <;>
      exact absurd h (by decide)

theorem uslTail_word_head (c : Char) (tl : Str) (h : isWordChar c = true) :
    uslTail (c :: tl) = false := by
  have hs := isWordChar_not_space c h
  have hd : (c :: tl).dropWhile pyIsSpace = c :: tl := by
    simp [List.dropWhile_cons, hs]
  unfold uslTail
  rw [hd]
  split
  · next heq =>
    exfalso
    cases heq
    exact absurd h (by decide)
  · rfl

theorem uslSearch_append_name (tail0 : Str)
    (h0 : uslAt [] true tail0 = some []) :
    ∀ name : Str, name.all isWordChar = true →
      uslSearch [] true (name ++ tail0) = some [] := by
  intro name
  induction name with
  | nil =>
    intro _
    simp only [List.nil_append]
    cases tail0 with
    | nil => simpa [uslSearch] using h0
    | cons c tl =>
      simp only [uslSearch]
      rw [h0]
  | cons c nm ih =>
    intro hall
    simp only [List.all_cons, Bool.and_eq_true] at hall
    have hAt : uslAt [] true (c :: (nm ++ tail0)) = none := by
      unfold uslAt
      simp [uslHeadWord, hall.1]
    simp only [List.cons_append, uslSearch, List.append_eq]
    rw [hAt, hall.1]
    exact ih hall.2

theorem searchCheck_empty_matches_cmp (name : Str)
    (hw : name.all isWordChar = true) (hne : name ≠ []) :
    searchCheck [] (name ++ str " <= 0") = some [] ∧
    searchCheck [] (name ++ str " < 0") = some [] := by
  obtain ⟨c, nm, rfl⟩ := List.exists_cons_of_ne_nil hne
  simp only [List.all_cons, Bool.and_eq_true] at hw
  constructor <;>
  · simp only [searchCheck, List.cons_append, uslSearch, List.append_eq]
    rw [show uslAt [] false (c :: (nm ++ _)) = none from ?_, hw.1]
    · exact uslSearch_append_name _ (by decide) nm hw.2
    · unfold uslAt
      simp [uslHeadWord, hw.1, uslAlternatives, uslTail_word_head c _ hw.1]

/-- C10: when the file contains no unsigned-typed declaration, the
unsigned-logic rule compiles the empty-alternation pattern
`\b()\s*<=?\s*0`; its diagnostics are then exactly one per line on which
that pattern matches, each reporting the empty string as the variable
name; and the pattern matches `name <= 0` and `name < 0` for every
identifier `name`. -/
theorem c10_empty_alternation_matches_any_identifier :
    (∀ (lines : List Str) (s : AState),
      findUIDecls (joinedLines lines) = [] →
      ((check_unsigned_logic (some lines) s).diags = s.diags ++
        mkDiags RuleId.unsigned_logic_check ((enum1 lines).filterMap (fun p =>
          (searchCheck [] p.2).map (fun v => (p.1, v)))) ∧
       ∀ d ∈ unsignedLogicHits lines, d.2 = ([] : Str))) ∧
    (∀ name : Str, name.all isWordChar = true → name ≠ [] →
      searchCheck [] (name ++ str " <= 0") = some [] ∧
      searchCheck [] (name ++ str " < 0") = some []) := by
  constructor
  · intro lines s h
    constructor
    · simp [check_unsigned_logic, addDiags, unsignedLogicHits, h]
    · intro d hd
      simp only [unsignedLogicHits, h, List.mem_filterMap] at hd
      obtain ⟨p, hp, hsc⟩ := hd
      cases hv : searchCheck [] p.2 with
      | none => rw [hv] at hsc; cases hsc
      | some v =>
        rw [hv] at hsc
        cases hsc
        have hm := uslSearch_mem [] p.2 false v hv
        simpa [uslAlternatives] using hm
  · exact searchCheck_empty_matches_cmp

/-- C10 (witness): the file `a < 0` with no unsigned declarations gets one
diagnostic with the empty variable name, and `xyz <= 0` matches the empty
pattern. -/
theorem c10_witness :
    ((check_unsigned_logic (some [ str "a < 0\n" ]) initState).diags =
      initState.diags ++ mkDiags RuleId.unsigned_logic_check
        ((enum1 [ str "a < 0\n" ]).filterMap (fun p =>
          (searchCheck [] p.2).map (fun v => (p.1, v))))) ∧
    searchCheck [] (str "xyz" ++ str " <= 0") = some [] :=
  ⟨(c10_empty_alternation_matches_any_identifier.1 [ str "a < 0\n" ] initState
      (by decide)).1,
   (c10_empty_alternation_matches_any_identifier.2 (str "xyz") (by decide)
      (by decide)).1⟩

/-! ## Reserved-type set discipline (C9) -/

theorem foldl_preserves {α : Type _} {β : Type _} (P : α → Prop) (f : α → β → α)
    (h : ∀ a b, P a → P (f a b)) :
    ∀ (l : List β) (a : α), P a → P (List.foldl f a l) := by
  intro l
  induction l with
  | nil => intro a ha; exact ha
  | cons b tl ih => intro a ha; exact ih _ (h a b ha)

theorem insertType_subset (R : List Str) (t : Str) : R ⊆ insertType R t := by
  unfold insertType
  split
  · exact List.subset_append_left _ _
  · exact fun x hx => hx

theorem insertType_mem (R : List Str) (t u : Str) (h : u ∈ insertType R t) :
    u ∈ R ∨ ¬ u ∈ KNOWN_KEYWORDS := by
  unfold insertType at h
  split at h
  · next hval =>
    rcases List.mem_append.mp h with h1 | h1
    · exact Or.inl h1
    · right
      rcases List.mem_singleton.mp h1 with rfl
      intro hk
      simp only [is_valid_type_name, Bool.not_eq_true', Bool.or_eq_false_iff] at hval
      have hc : KNOWN_KEYWORDS.contains u = true := List.elem_iff.mpr hk
      rw [hval.1] at hc
      exact Bool.noConfusion hc
  · exact Or.inl h

theorem insertType_nodup (R : List Str) (t : Str) (h : R.Nodup) :
    (insertType R t).Nodup := by
  unfold insertType
  split
  · next hval =>
    have ht : t ∉ R := by
      intro hm
      simp only [is_valid_type_name, Bool.not_eq_true', Bool.or_eq_false_iff] at hval
      have hc : R.contains t = true := List.elem_iff.mpr hm
      rw [hval.2] at hc
      exact Bool.noConfusion hc
    refine List.nodup_append.mpr ⟨h, List.nodup_singleton t, ?_⟩
    intro a ha hb
    rcases List.mem_singleton.mp hb with rfl
    exact ht ha
  · exact h

/-- The combined invariant the extraction folds preserve: the result only
grows, every new entry passed the keyword guard and duplicates are never
inserted. -/
def ExtractInv (R : List Str) (acc : List Str) : Prop :=
  R ⊆ acc ∧ (∀ t ∈ acc, t ∈ R ∨ ¬ t ∈ KNOWN_KEYWORDS) ∧ (R.Nodup → acc.Nodup)

theorem insertType_ExtractInv (R : List Str) (acc : List Str) (t : Str)
    (h : ExtractInv R acc) : ExtractInv R (insertType acc t) := by
  obtain ⟨h1, h2, h3⟩ := h
  refine ⟨h1.trans (insertType_subset acc t), ?_, fun hnd => insertType_nodup acc t (h3 hnd)⟩
  intro u hu
  rcases insertType_mem acc t u hu with hm | hm
  · exact h2 u hm
  · exact Or.inr hm

theorem extract_ExtractInv (content : Str) (R : List Str) :
    ExtractInv R (extract_global_declarations content R) := by
  unfold extract_global_declarations
  have base : ExtractInv R R := ⟨fun x hx => hx, fun t ht => Or.inl ht, id⟩
  have h1 := foldl_preserves (ExtractInv R)
    (fun acc m => insertType acc (pyStrip m))
    (fun acc m hp => insertType_ExtractInv R acc (pyStrip m) hp)
    (extractCandidates content) R base
  refine foldl_preserves (ExtractInv R) _ ?_ (funcMatches content) _ h1
  intro acc m hp
  refine foldl_preserves (ExtractInv R) _ ?_ (pySplitOn ',' m.2.2) _
    (insertType_ExtractInv R acc m.1 hp)
  intro acc2 param hp2
  cases hsplit : pySplitWs (pyStrip param) with
  | nil => exact hp2
  | cons t rest =>
    cases rest with
    | nil => exact hp2
    | cons t2 rest2 => exact insertType_ExtractInv R acc2 t hp2

theorem line_length_reserved (f : Option (List Str)) (s : AState) :
    (check_line_length_limit f s).reserved = s.reserved := by cases f <;> rfl

theorem brace_reserved (f : Option (List Str)) (s : AState) :
    (check_brace_placement f s).reserved = s.reserved := by cases f <;> rfl

theorem var_decl_reserved (f : Option (List Str)) (s : AState) :
    (check_variable_declaration f s).reserved = s.reserved := by
  cases f with
  | none => rfl
  | some lines =>
    simp only [check_variable_declaration]
    split <;> rfl

theorem naming_reserved (f : Option (List Str)) (s : AState) :
    (check_naming_conventions f s).reserved = s.reserved := by cases f <;> rfl

theorem spacing_reserved (f : Option (List Str)) (s : AState) :
    (check_spacing_between_routines f s).reserved = s.reserved := by cases f <;> rfl

theorem hex_reserved (f : Option (List Str)) (s : AState) :
    (check_hex_values f s).reserved = s.reserved := by cases f <;> rfl

theorem comments_reserved (f : Option (List Str)) (s : AState) :
    (check_comments f s).reserved = s.reserved := by cases f <;> rfl

theorem consistency_reserved (f : Option (List Str)) (s : AState) :
    (check_consistency f s).reserved = s.reserved := by cases f <;> rfl

theorem excess_reserved (f : Option (List Str)) (s : AState) :
    (check_excess_whitespace f s).reserved = s.reserved := by cases f <;> rfl

theorem unsigned_vars_reserved (f : Option (List Str)) (s : AState) :
    (check_unsigned_variables f s).reserved = s.reserved := by cases f <;> rfl

theorem operator_spacing_reserved (f : Option (List Str)) (s : AState) :
    (check_operator_spacing f s).reserved = s.reserved := by cases f <;> rfl

theorem unsigned_logic_reserved (f : Option (List Str)) (s : AState) :
    (check_unsigned_logic f s).reserved = s.reserved := by cases f <;> rfl

theorem address_reserved (f : Option (List Str)) (s : AState) :
    (check_address_print_format f s).reserved = s.reserved := by cases f <;> rfl

/-- Over a full `.c` run the reserved set is exactly the one produced by
the extraction pass on the file content: extraction runs first, and no
later rule mutates the set. -/
theorem run_reserved (lines : List Str) :
    (run_analysis (some lines) FileExt.c).reserved =
      extract_global_declarations (List.flatten lines) RESERVED_TYPES := by
  simp only [run_analysis, cPipeline, List.foldl_cons, List.foldl_nil]
  rw [show ∀ s : AState, ({ s with emailed := true } : AState).reserved = s.reserved
      from fun _ => rfl]
  rw [address_reserved, unsigned_logic_reserved, operator_spacing_reserved,
    unsigned_vars_reserved, excess_reserved, consistency_reserved,
    comments_reserved, hex_reserved, spacing_reserved, naming_reserved,
    var_decl_reserved, brace_reserved, line_length_reserved]
  rfl

/-- C9: during extraction a candidate is inserted only if it is neither a
known keyword nor already present (so the set stays duplicate-free), the
set only grows, and in a `.c` run the set every downstream rule reads is
exactly the fully extended set produced before any rule ran. -/
theorem c9_reserved_type_set_discipline :
    (∀ (content : Str) (R : List Str), R ⊆ extract_global_declarations content R) ∧
    (∀ (content : Str) (R : List Str) (t : Str),
      t ∈ extract_global_declarations content R → t ∈ R ∨ ¬ t ∈ KNOWN_KEYWORDS) ∧
    (∀ (content : Str) (R : List Str), R.Nodup →
      (extract_global_declarations content R).Nodup) ∧
    (∀ lines : List Str, (run_analysis (some lines) FileExt.c).reserved =
      extract_global_declarations (List.flatten lines) RESERVED_TYPES) :=
  ⟨fun content R => (extract_ExtractInv content R).1,
   fun content R t ht => (extract_ExtractInv content R).2.1 t ht,
   fun content R hnd => (extract_ExtractInv content R).2.2 hnd,
   run_reserved⟩

/-- Concrete content for the C9 witness: an anonymous `typedef struct`
naming `Widget`. -/
def c9Content : Str :=
  str "typedef struct " ++ ('{' :: str " int a; ") ++ ('}' :: str " Widget;")

/-- C9 (witness): on a concrete `typedef struct` content with a singleton
seed the extraction result is duplicate-free, keeps the seed, and the
discovered `Widget` is not a keyword. -/
theorem c9_witness :
    (extract_global_declarations c9Content [ str "int" ]).Nodup ∧
    str "int" ∈ extract_global_declarations c9Content [ str "int" ] ∧
    (str "Widget" ∈ [ str "int" ] ∨ ¬ str "Widget" ∈ KNOWN_KEYWORDS) :=
  ⟨c9_reserved_type_set_discipline.2.2.1 c9Content [ str "int" ] (by decide),
   c9_reserved_type_set_discipline.1 c9Content [ str "int" ] (by decide),
   c9_reserved_type_set_discipline.2.1 c9Content [ str "int" ] (str "Widget")
     (by decide)⟩
